import Mathlib

/-
  Verification development for the Reddit textual-content extractor
  (src/tools/reddit.py).

  Shallow-embedding conventions:
  * Python strings are Lean strings; the embedding is faithful on ASCII data
    (the NFKD normalization and combining-mark stripping done by
    normalize_text are the identity on ASCII, where Python's \w class is
    alphanumerics plus underscore).
  * JSON payloads are the inductive type JVal; Python None (which is also the
    result of dict.get on a missing key, and of json null) is JVal.jnull.
  * Python numbers are modelled as rationals (ints embed exactly).
  * The mutable accumulator comments_list is threaded explicitly; recursive
    walkers take a fuel argument large enough that it never runs out
    (fuel-independence lemmas are proved below).
  * Exceptions are modelled by the control flow of the handlers that catch
    them (the source catches everything locally).
-/

namespace Reddit

/-- Leading-whitespace removal on a character list. -/
def dropWs (cs : List Char) : List Char := cs.dropWhile Char.isWhitespace

/-- Both-ends whitespace removal on a character list. -/
def trimChars (cs : List Char) : List Char :=
  ((dropWs cs).reverse.dropWhile Char.isWhitespace).reverse

/-- Python str.strip() restricted to ASCII whitespace. -/
def pyStrip (s : String) : String := String.mk (trimChars s.data)

/-- Prefix test on character lists. -/
def listHasPre : List Char → List Char → Bool
  | [], _ => true
  | _ :: _, [] => false
  | p :: ps, c :: cs => p == c && listHasPre ps cs

/-- Substring test on character lists. -/
def listHasSub (needle : List Char) : List Char → Bool
  | [] => needle.isEmpty
  | c :: cs => listHasPre needle (c :: cs) || listHasSub needle cs

/-- Python str.startswith. -/
def pyStartsWith (s pre : String) : Bool := listHasPre pre.data s.data

/-- Python str.replace(old, new) for a nonempty pattern: replace every
    occurrence, scanning left to right. Fuelled by the input length, which a
    nonempty pattern can never exhaust (every step consumes a character). -/
def replaceCharsGo (old new : List Char) : Nat → List Char → List Char
  | 0, cs => cs
  | _ + 1, [] => []
  | fuel + 1, c :: cs =>
    if listHasPre old (c :: cs) then
      new ++ replaceCharsGo old new fuel (List.drop (old.length - 1) cs)
    else c :: replaceCharsGo old new fuel cs

/-- Python str.replace lifted to strings. -/
def pyReplace (s old new : String) : String :=
  String.mk (replaceCharsGo old.data new.data s.data.length s.data)

/-- ASCII lowercasing of one character. -/
def asciiLower (c : Char) : Char :=
  if 'A' ≤ c && c ≤ 'Z' then Char.ofNat (c.toNat + 32) else c

/-- Python str.lower() on ASCII. -/
def pyLower (s : String) : String := String.mk (s.data.map asciiLower)

/-- Python's \w character class on ASCII: alphanumerics and underscore. -/
def isWordChar (c : Char) : Bool := c.isAlphanum || c == '_'

/-- One character of re.sub(r"[^\w\s]", " ", text): non-word, non-space
    characters become a space. -/
def punctToSpace (c : Char) : Char :=
  if isWordChar c || c.isWhitespace then c else ' '

/-- re.sub(r"\s+", " ", text): collapse every whitespace run into one space.
    The boolean records whether the previous emitted character closed a run. -/
def squashWsGo : Bool → List Char → List Char
  | _, [] => []
  | prevWs, c :: cs =>
    if c.isWhitespace then
      (if prevWs then [] else [' ']) ++ squashWsGo true cs
    else c :: squashWsGo false cs

/-- RedditExtractor.normalize_text (lines 122-133): on ASCII input the NFKD
    and combining-mark steps are the identity, then punctuation is replaced by
    spaces, whitespace runs are collapsed, and the ends are stripped. -/
def normalize_text (text : String) : String :=
  if text = "" then ""
  else String.mk (trimChars (squashWsGo false (text.data.map punctToSpace)))

/-- Python `needle in hay` substring test. -/
def strContains (hay needle : String) : Bool :=
  listHasSub needle.data hay.data

/-- Python `a or b` for an optional string a: None and the empty string are
    falsy. -/
def pyOrStr (a : Option String) (b : String) : String :=
  match a with
  | some s => if s = "" then b else s
  | none => b

/-- Python truthiness of an optional string. -/
def pyOptTruthy (a : Option String) : Bool :=
  match a with
  | some s => !(s == "")
  | none => false

/-- Helper for int(): digits-only string to a number. -/
def natOfDigits (ds : List Char) : Option Nat :=
  match ds with
  | [] => none
  | _ => if ds.all Char.isDigit then
           some (ds.foldl (fun a c => a * 10 + (c.toNat - 48)) 0)
         else none

/-- Python int(str): optional surrounding whitespace, optional sign, ASCII
    digits; anything else raises ValueError (None here). -/
def parseIntPy (s : String) : Option Int :=
  match trimChars s.data with
  | '+' :: ds => (natOfDigits ds).map Int.ofNat
  | '-' :: ds => (natOfDigits ds).map (fun n => -(n : Int))
  | ds => (natOfDigits ds).map Int.ofNat

/-- Modelled from the spec: NLTK tokenization/lemmatization is declared out of
    scope ("generic text-normalization/lemmatization [is] a stateless string
    transform, not part of the extraction contract"), so the transform is
    modelled as the identity. No claim inspects this derived field. -/
def process_text_with_nltk (s : String) : String := s

/-- JSON values as produced by json.loads; jnull doubles as Python None. -/
inductive JVal where
  | jnull : JVal
  | jbool : Bool → JVal
  | jnum : ℚ → JVal
  | jstr : String → JVal
  | jarr : List JVal → JVal
  | jobj : List (String × JVal) → JVal

mutual

/-- Structural (Python ==) equality test on JSON values. -/
def jbeq : JVal → JVal → Bool
  | .jnull, .jnull => true
  | .jbool x, .jbool y => x == y
  | .jnum x, .jnum y => x == y
  | .jstr x, .jstr y => x == y
  | .jarr xs, .jarr ys => jbeqL xs ys
  | .jobj fs, .jobj gs => jbeqF fs gs
  | _, _ => false

/-- Elementwise equality of JSON arrays. -/
def jbeqL : List JVal → List JVal → Bool
  | [], [] => true
  | x :: xs, y :: ys => jbeq x y && jbeqL xs ys
  | _, _ => false

/-- Entrywise equality of JSON objects. -/
def jbeqF : List (String × JVal) → List (String × JVal) → Bool
  | [], [] => true
  | (k, v) :: fs, (l, w) :: gs => k == l && jbeq v w && jbeqF fs gs
  | _, _ => false

end

mutual

theorem jbeq_eq : (a b : JVal) → jbeq a b = true → a = b
  | .jnull, .jnull, _ => rfl
  | .jnull, .jbool _, h => by simp [jbeq] at h
  | .jnull, .jnum _, h => by simp [jbeq] at h
  | .jnull, .jstr _, h => by simp [jbeq] at h
  | .jnull, .jarr _, h => by simp [jbeq] at h
  | .jnull, .jobj _, h => by simp [jbeq] at h
  | .jbool _, .jnull, h => by simp [jbeq] at h
  | .jbool x, .jbool y, h => by simp [jbeq] at h; simp [h]
  | .jbool _, .jnum _, h => by simp [jbeq] at h
  | .jbool _, .jstr _, h => by simp [jbeq] at h
  | .jbool _, .jarr _, h => by simp [jbeq] at h
  | .jbool _, .jobj _, h => by simp [jbeq] at h
  | .jnum _, .jnull, h => by simp [jbeq] at h
  | .jnum _, .jbool _, h => by simp [jbeq] at h
  | .jnum x, .jnum y, h => by simp [jbeq] at h; simp [h]
  | .jnum _, .jstr _, h => by simp [jbeq] at h
  | .jnum _, .jarr _, h => by simp [jbeq] at h
  | .jnum _, .jobj _, h => by simp [jbeq] at h
  | .jstr _, .jnull, h => by simp [jbeq] at h
  | .jstr _, .jbool _, h => by simp [jbeq] at h
  | .jstr _, .jnum _, h => by simp [jbeq] at h
  | .jstr x, .jstr y, h => by simp [jbeq] at h; simp [h]
  | .jstr _, .jarr _, h => by simp [jbeq] at h
  | .jstr _, .jobj _, h => by simp [jbeq] at h
  | .jarr _, .jnull, h => by simp [jbeq] at h
  | .jarr _, .jbool _, h => by simp [jbeq] at h
  | .jarr _, .jnum _, h => by simp [jbeq] at h
  | .jarr _, .jstr _, h => by simp [jbeq] at h
  | .jarr xs, .jarr ys, h =>
      congrArg JVal.jarr (jbeqL_eq xs ys (by simpa [jbeq] using h))
  | .jarr _, .jobj _, h => by simp [jbeq] at h
  | .jobj _, .jnull, h => by simp [jbeq] at h
  | .jobj _, .jbool _, h => by simp [jbeq] at h
  | .jobj _, .jnum _, h => by simp [jbeq] at h
  | .jobj _, .jstr _, h => by simp [jbeq] at h
  | .jobj _, .jarr _, h => by simp [jbeq] at h
  | .jobj fs, .jobj gs, h =>
      congrArg JVal.jobj (jbeqF_eq fs gs (by simpa [jbeq] using h))

theorem jbeqL_eq : (xs ys : List JVal) → jbeqL xs ys = true → xs = ys
  | [], [], _ => rfl
  | [], _ :: _, h => by simp [jbeqL] at h
  | _ :: _, [], h => by simp [jbeqL] at h
  | x :: xs, y :: ys, h => by
      simp only [jbeqL, Bool.and_eq_true] at h
      exact congrArg₂ List.cons (jbeq_eq x y h.1) (jbeqL_eq xs ys h.2)

theorem jbeqF_eq : (fs gs : List (String × JVal)) → jbeqF fs gs = true → fs = gs
  | [], [], _ => rfl
  | [], _ :: _, h => by simp [jbeqF] at h
  | _ :: _, [], h => by simp [jbeqF] at h
  | (k, v) :: fs, (l, w) :: gs, h => by
      simp only [jbeqF, Bool.and_eq_true] at h
      have hk : k = l := by simpa using h.1.1
      have hv : v = w := jbeq_eq v w h.1.2
      have ht : fs = gs := jbeqF_eq fs gs h.2
      simp [hk, hv, ht]

end

mutual

theorem jbeq_refl : (a : JVal) → jbeq a a = true
  | .jnull => rfl
  | .jbool x => by simp [jbeq]
  | .jnum x => by simp [jbeq]
  | .jstr x => by simp [jbeq]
  | .jarr xs => by simp only [jbeq]; exact jbeqL_refl xs
  | .jobj fs => by simp only [jbeq]; exact jbeqF_refl fs

theorem jbeqL_refl : (xs : List JVal) → jbeqL xs xs = true
  | [] => rfl
  | x :: xs => by
      simp only [jbeqL, Bool.and_eq_true]
      exact ⟨jbeq_refl x, jbeqL_refl xs⟩

theorem jbeqF_refl : (fs : List (String × JVal)) → jbeqF fs fs = true
  | [] => rfl
  | (k, v) :: fs => by
      simp only [jbeqF, Bool.and_eq_true]
      exact ⟨⟨by simp, jbeq_refl v⟩, jbeqF_refl fs⟩

end

instance : DecidableEq JVal := fun a b =>
  if h : jbeq a b = true then .isTrue (jbeq_eq a b h)
  else .isFalse (fun he => h (he ▸ jbeq_refl a))

mutual

/-- Python repr() of a JSON value (string escaping simplified; only used for
    f-string formatting of non-string values, which real payloads never
    exercise). -/
def pyRepr : JVal → String
  | .jnull => "None"
  | .jbool b => if b then "True" else "False"
  | .jnum q => if q.den = 1 then toString q.num else toString q
  | .jstr s => "'" ++ s ++ "'"
  | .jarr xs => "[" ++ pyReprL xs ++ "]"
  | .jobj fs => "\x7b" ++ pyReprF fs ++ "\x7d"

/-- Comma-joined repr of array elements. -/
def pyReprL : List JVal → String
  | [] => ""
  | [x] => pyRepr x
  | x :: xs => pyRepr x ++ ", " ++ pyReprL xs

/-- Comma-joined repr of object entries. -/
def pyReprF : List (String × JVal) → String
  | [] => ""
  | [(k, v)] => "'" ++ k ++ "': " ++ pyRepr v
  | (k, v) :: fs => "'" ++ k ++ "': " ++ pyRepr v ++ ", " ++ pyReprF fs

end

mutual

/-- Size of a JSON value, used to bound recursion depth. -/
def jsize : JVal → Nat
  | .jnull => 1
  | .jbool _ => 1
  | .jnum _ => 1
  | .jstr _ => 1
  | .jarr xs => 1 + jsizeL xs
  | .jobj fs => 1 + jsizeF fs

/-- Total size of the elements of a JSON array. -/
def jsizeL : List JVal → Nat
  | [] => 0
  | x :: xs => jsize x + jsizeL xs

/-- Total size of the values of a JSON object. -/
def jsizeF : List (String × JVal) → Nat
  | [] => 0
  | (_, v) :: fs => jsize v + jsizeF fs

end

/-- First binding of a key in an object (Python dicts have unique keys). -/
def jlookup : List (String × JVal) → String → Option JVal
  | [], _ => none
  | (k, v) :: fs, key => if k = key then some v else jlookup fs key

/-- Python dict.get(key) on a JSON object: None (jnull) when absent. Only
    applied after the source has established the receiver is a dict. -/
def jget (o : JVal) (key : String) : JVal :=
  match o with
  | .jobj fs => (jlookup fs key).getD .jnull
  | _ => .jnull

/-- Python dict.get(key, default). -/
def jgetD (o : JVal) (key : String) (dflt : JVal) : JVal :=
  match o with
  | .jobj fs => (jlookup fs key).getD dflt
  | _ => dflt

/-- Python truthiness of a JSON value. -/
def jtruthy : JVal → Bool
  | .jnull => false
  | .jbool b => b
  | .jnum q => !(q == 0)
  | .jstr s => !(s == "")
  | .jarr xs => !xs.isEmpty
  | .jobj fs => !fs.isEmpty

/-- Python str() of a JSON value as used in f-string formatting: strings are
    themselves, everything else renders like repr. -/
def pyStr : JVal → String
  | .jstr s => s
  | v => pyRepr v

/-- Python iteration over a value: lists yield their elements, strings yield
    one-character strings, dicts yield their keys; other values raise
    TypeError (none here, caught by the enclosing handler). -/
def jIter : JVal → Option (List JVal)
  | .jarr xs => some xs
  | .jstr s => some (s.data.map (fun c => JVal.jstr (String.mk [c])))
  | .jobj fs => some (fs.map (fun kv => JVal.jstr kv.1))
  | _ => none

/-- One flattened comment record as built by parse_reddit_json_comments
    (lines 430-444). Field values keep their Python types: JSON values where
    the source stores dict lookups verbatim, strings where it stores computed
    text. -/
structure JComment where
  comment_id : JVal
  parent_id : JVal
  parent_chain : JVal
  author : JVal
  author_id : JVal
  subreddit : JVal
  link : JVal
  created_time : JVal
  body : String
  body_processed : String
  score : JVal
  depth : Nat
  reply_count : Nat
deriving DecidableEq

/-- The list of child nodes Python ends up iterating for a comment's replies
    (lines 452-463): a truthy dict replies value contributes
    replies["data"]["children"]; a truthy non-dict contributes nothing
    (the elif/else branches), as do the exception paths (a non-dict
    replies["data"] raises AttributeError at reply_data.get and a
    non-iterable children value raises TypeError at the for statement; both
    are caught and leave the already-appended comment with reply count 0,
    exactly like an empty child list). -/
def repliesChildren (data : JVal) : List JVal :=
  let replies := jget data "replies"
  if jtruthy replies then
    match replies with
    | .jobj _ =>
      match jgetD replies "data" (.jobj []) with
      | .jobj rfs =>
        match jIter (jgetD (.jobj rfs) "children" (.jarr [])) with
        | some ks => ks
        | none => []
      | _ => []
    | _ => []
  else []

/-- The guard prefix of extract_comment_from_json (lines 400-433): every check
    the source performs before the comment dict is appended. On success it
    yields the data dict, the normalized body and the parent_chain value; on
    failure (including the exception paths: a non-dict node raises
    AttributeError at .get, a non-string body raises TypeError inside
    normalize_text, and a truthy non-string parent raises TypeError inside
    the " > ".join — all caught by the handler) the source returns 0 having
    emitted nothing. -/
def jsonCommentGuard (cd : JVal) (parent_id : JVal) : Option (JVal × String × JVal) :=
  match cd with
  | .jobj _ =>
    if jget cd "kind" = .jstr "more" then none
    else if ¬ jtruthy cd ∨ jget cd "kind" ≠ .jstr "t1" then none
    else
      let data := jgetD cd "data" (.jobj [])
      if ¬ jtruthy data then none
      else
        let author := jgetD data "author" (.jstr "[unknown]")
        if author = .jstr "[deleted]" ∨ author = .jstr "[removed]" then none
        else
          let body := jgetD data "body" (.jstr "")
          if ¬ jtruthy body ∨ body = .jstr "[deleted]" ∨ body = .jstr "[removed]" then none
          else
            match body with
            | .jstr bodyStr =>
              let nb := normalize_text bodyStr
              if nb = "" ∨ (pyStrip nb).length < 3 then none
              else
                if jtruthy parent_id then
                  match parent_id with
                  | .jstr ps => some (data, nb, .jstr ps)
                  | _ => none
                else some (data, nb, .jnull)
            | _ => none
  | _ => none

/-- The body of the replies for-loop (lines 464-466): recursively process one
    child and count it.
    The source line is
      replies_processed += child_replies + 1 if child_replies >= 0 else 0
    whose else branch is dead code (returns are never negative); it is kept
    verbatim. -/
def repliesStep (recurse : JVal → List JComment → List JComment × Nat)
    (st : List JComment × Nat) (child : JVal) : List JComment × Nat :=
  let r := recurse child st.1
  (r.1, st.2 + (if 0 ≤ r.2 then r.2 + 1 else 0))

/-- The comment_info dict built at lines 430-444. -/
def jsonCommentRecord (pid pc d : JVal) (nb : String) (depth : Nat) : JComment :=
  { comment_id := jget d "id"
    parent_id := pid
    parent_chain := pc
    author := jgetD d "author" (.jstr "[unknown]")
    author_id := jget d "author_fullname"
    subreddit := jget d "subreddit"
    link := if jtruthy (jget d "permalink") then
        .jstr ("https://www.reddit.com" ++ pyStr (jget d "permalink"))
      else .jnull
    created_time := jget d "created_utc"
    body := nb
    body_processed := process_text_with_nltk nb
    score := jgetD d "score" (.jnum 0)
    depth := depth
    reply_count := 0 }

/-- The emission half of extract_comment_from_json (lines 430-473): append the
    record, recurse into the replies children, and patch the appended record's
    reply_count in place when replies_processed ended positive. -/
def extract_emit (recurse : JVal → List JComment → List JComment × Nat)
    (pid pc d : JVal) (nb : String) (depth : Nat) (acc : List JComment) :
    List JComment × Nat :=
  let rec0 := jsonCommentRecord pid pc d nb depth
  let step := (repliesChildren d).foldl (repliesStep recurse) (acc ++ [rec0], 0)
  if step.2 > 0 then
    (step.1.set acc.length { rec0 with reply_count := step.2 }, step.2)
  else step

/-- extract_comment_from_json (lines 398-477). Returns the grown accumulator
    and the replies_processed return value. The fuel argument only bounds the
    recursion: the fuel-independence lemma below shows any fuel of at least
    jsize cd gives the same result, and the wrapper passes jsize cd. -/
def extract_comment_go (fuel : Nat) (cd : JVal) (parent_id : JVal) (depth : Nat)
    (acc : List JComment) : List JComment × Nat :=
  match fuel with
  | 0 => (acc, 0)
  | fuel + 1 =>
    match jsonCommentGuard cd parent_id with
    | none => (acc, 0)
    | some (d, nb, pc) =>
      extract_emit
        (fun child a => extract_comment_go fuel child (jget d "id") (depth + 1) a)
        parent_id pc d nb depth acc

/-- extract_comment_from_json with the fuel fixed at a sufficient value. -/
def extract_comment_from_json (cd : JVal) (parent_id : JVal) (depth : Nat)
    (acc : List JComment) : List JComment × Nat :=
  extract_comment_go (jsize cd) cd parent_id depth acc

/-- parse_reddit_json_comments (lines 394-493): expects [post_data,
    comments_section] and walks comments_section["data"]["children"].
    Non-conforming shapes degrade to the already-accumulated list exactly as
    the try/except does. -/
def parse_reddit_json_comments (json_data : JVal) : List JComment :=
  match json_data with
  | .jarr (_ :: cs :: _) =>
    match cs with
    | .jobj _ =>
      match jgetD cs "data" (.jobj []) with
      | .jobj cfs =>
        match jIter (jgetD (.jobj cfs) "children" (.jarr [])) with
        | some ks =>
          ks.foldl (fun acc child => (extract_comment_from_json child .jnull 0 acc).1) []
        | none => []
      | _ => []
    | _ => []
  | _ => []

/-- Fixture for claim C2: a JSON API payload holding one well-formed t1
    comment whose data carries no id field. -/
def c2_payload : JVal := .jarr [.jnull,
  .jobj [("data", .jobj [("children", .jarr [
    .jobj [("kind", .jstr "t1"),
           ("data", .jobj [("author", .jstr "alice"),
                           ("body", .jstr "hello world comment")])]])])]]

/-- Fixture for claim C3: a JSON API payload holding one well-formed comment
    whose replies listing contains a single kind-more stub and nothing else. -/
def c3_payload : JVal := .jarr [.jnull,
  .jobj [("data", .jobj [("children", .jarr [
    .jobj [("kind", .jstr "t1"),
           ("data", .jobj [("id", .jstr "a"),
                           ("author", .jstr "alice"),
                           ("body", .jstr "hello world comment"),
                           ("replies", .jobj [("data", .jobj [("children", .jarr [
                              .jobj [("kind", .jstr "more"),
                                     ("data", .jobj [])]])])])])]])])]]

/-- Fixture for claim C10's witness: a kind-more stub whose replies subtree
    nests a perfectly valid t1 comment; nothing may be emitted for either. -/
def c10_fixture : JVal :=
  .jobj [("kind", .jstr "more"),
         ("data", .jobj [("id", .jstr "m0"),
                         ("replies", .jobj [("data", .jobj [("children", .jarr [
                           .jobj [("kind", .jstr "t1"),
                                  ("data", .jobj [("id", .jstr "ok"),
                                                  ("author", .jstr "bob"),
                                                  ("body", .jstr "a perfectly fine comment")])]])])])])]

/-- Claim C10's first skip condition: the node's kind is the more stub. -/
def jsonKindMore (cd : JVal) : Prop := jget cd "kind" = .jstr "more"

/-- Claim C10's second skip condition: the author resolves to a
    deleted/removed sentinel. -/
def jsonAuthorDeleted (cd : JVal) : Prop :=
  jgetD (jgetD cd "data" (.jobj [])) "author" (.jstr "[unknown]") = .jstr "[deleted]" ∨
  jgetD (jgetD cd "data" (.jobj [])) "author" (.jstr "[unknown]") = .jstr "[removed]"

/-- Claim C10's third skip condition: the body is a deleted/removed
    sentinel. -/
def jsonBodyDeleted (cd : JVal) : Prop :=
  jgetD (jgetD cd "data" (.jobj [])) "body" (.jstr "") = .jstr "[deleted]" ∨
  jgetD (jgetD cd "data" (.jobj [])) "body" (.jstr "") = .jstr "[removed]"

/-- Claim C10's fourth skip condition: the normalized body strips to fewer
    than 3 characters (including an empty normalization). -/
def jsonBodyShort (cd : JVal) : Prop :=
  ∃ s, jgetD (jgetD cd "data" (.jobj [])) "body" (.jstr "") = .jstr s ∧
    (normalize_text s = "" ∨ (pyStrip (normalize_text s)).length < 3)

/-- Network outcome of one HTTP attempt inside safe_request: a response with
    some status code, a transport timeout, or another request exception. -/
inductive AttemptOutcome where
  | status : Nat → AttemptOutcome
  | timeout : AttemptOutcome
  | netError : AttemptOutcome
deriving DecidableEq

/-- self.base_delay (line 53). -/
def base_delay : ℚ := 3

/-- self.max_delay (line 54). -/
def max_delay : ℚ := 30

/-- self.backoff_factor (line 55). -/
def backoff_factor : ℚ := 2

/-- self.retry_attempts (line 56). -/
def retry_attempts : Nat := 5

/-- The attempt loop of safe_request (lines 77-120). k is the number of loop
    iterations left, attempt the zero-based index, delay the running
    current_delay. Returns the performed sleeps (attempt index paired with the
    slept delay, in order) and the returned status code or an error after
    exhaustion/raise. The k = 0 base mirrors line 120, which its own comment
    calls unreachable. On HTTP 429 the delay is tripled; on 403/502/503
    doubled; both retry unless this was the last attempt, in which case
    raise_for_status raises (the codes are all in [400, 600)) and the
    RequestException handler re-raises. Other 4xx/5xx codes raise through the
    same handler; anything else is returned. -/
def safe_request_loop (outcomes : Nat → AttemptOutcome) :
    Nat → Nat → ℚ → List (Nat × ℚ) × Except Unit Nat
  | 0, _, _ => ([], .error ())
  | k + 1, attempt, delay =>
    let d := if attempt > 0 then min (delay * backoff_factor) max_delay else delay
    match outcomes attempt with
    | .timeout =>
      if attempt = retry_attempts - 1 then ([(attempt, d)], .error ())
      else
        let r := safe_request_loop outcomes k (attempt + 1) d
        ((attempt, d) :: r.1, r.2)
    | .netError =>
      if attempt = retry_attempts - 1 then ([(attempt, d)], .error ())
      else
        let r := safe_request_loop outcomes k (attempt + 1) d
        ((attempt, d) :: r.1, r.2)
    | .status c =>
      if c = 429 then
        if attempt < retry_attempts - 1 then
          let r := safe_request_loop outcomes k (attempt + 1) (d * 3)
          ((attempt, d) :: r.1, r.2)
        else ([(attempt, d)], .error ())
      else if c = 403 ∨ c = 502 ∨ c = 503 then
        if attempt < retry_attempts - 1 then
          let r := safe_request_loop outcomes k (attempt + 1) (d * 2)
          ((attempt, d) :: r.1, r.2)
        else ([(attempt, d)], .error ())
      else if 400 ≤ c ∧ c < 600 then
        if attempt = retry_attempts - 1 then ([(attempt, d)], .error ())
        else
          let r := safe_request_loop outcomes k (attempt + 1) d
          ((attempt, d) :: r.1, r.2)
      else ([(attempt, d)], .ok c)

/-- Result of one safe_request call: sleeps performed, outcome, and the
    session request counter after the call. -/
structure SafeRequestRun where
  sleeps : List (Nat × ℚ)
  result : Except Unit Nat
  requests_count : Nat

/-- safe_request (lines 60-120): the counter increments once before any
    attempt (line 65); the initial delay is base_delay * delay_multiplier,
    plus min(2, requests_count / 100) once more than 50 session requests have
    been made, times 1.5 once the session is older than 300 seconds;
    requests_count0 is the counter before the call and duration the
    session_duration read at line 66. -/
def safe_request (delay_multiplier : ℚ) (requests_count0 : Nat) (duration : ℚ)
    (outcomes : Nat → AttemptOutcome) : SafeRequestRun :=
  let current0 := base_delay * delay_multiplier
  let rc := requests_count0 + 1
  let current1 := if rc > 50 then current0 + min 2 ((rc : ℚ) / 100) else current0
  let current2 := if duration > 300 then current1 * 1.5 else current1
  let r := safe_request_loop outcomes retry_attempts 0 current2
  { sleeps := r.1, result := r.2, requests_count := rc }

/-- The delays slept before retry attempts (attempt index at least 1),
    in order. -/
def retrySleeps (r : SafeRequestRun) : List ℚ :=
  (r.sleeps.filter (fun p => 1 ≤ p.1)).map (fun p => p.2)

/-- Keep-first deduplication by a key projection, as pandas
    drop_duplicates(keep="first") behaves; seen holds the keys already
    retained. -/
def dedupKeepFirstBy {α β : Type _} [DecidableEq β] (key : α → β) :
    List β → List α → List α
  | _, [] => []
  | seen, x :: xs =>
    if key x ∈ seen then dedupKeepFirstBy key seen xs
    else x :: dedupKeepFirstBy key (key x :: seen) xs

/-- The deduplication passes of process_comments_with_pandas (lines 766-772):
    drop exact full-record duplicates, then drop records whose body duplicates
    an earlier record's body, keeping first occurrences in input order. -/
def pandasDedupe {α : Type _} [DecidableEq α] (body : α → String)
    (xs : List α) : List α :=
  dedupKeepFirstBy body [] (dedupKeepFirstBy (fun c => c) [] xs)

/-- One listing item as built by get_subreddit_posts (lines 546-559), with the
    Python values concretized to the types real payloads carry; datetimes are
    epoch rationals. upvote_frac is the source's upvote_ratio field. -/
structure ListingItem where
  id : String
  title : String
  author : String
  score : Int
  num_comments : Int
  created_utc : ℚ
  created_time : ℚ
  url : String
  subreddit : String
  selftext : String
  domain : String
  upvote_frac : ℚ
deriving DecidableEq

/-- filter_posts_by_time_range (lines 568-581): keep the items whose creation
    time is at least now minus the window; a zero window disables filtering.
    (Every modelled item carries created_time, matching the dicts the listing
    parser builds, so the 'created_time' in post check always passes.) -/
def filter_posts_by_time_range (posts : List ListingItem)
    (time_range_days : Nat) (now : ℚ) : List ListingItem :=
  if time_range_days = 0 then posts
  else posts.filter (fun p => now - 86400 * time_range_days ≤ p.created_time)

/-- A comment tagged with its parent item's metadata (lines 627-632). -/
structure TaggedComment (γ : Type _) where
  base : γ
  post_id : String
  post_title : String
  post_score : Int
  post_author : String
  post_created_time : ℚ
deriving DecidableEq

/-- A listing item annotated with its extraction outcome (lines 637-641,
    645-649 and 666-671): the error field is only set by the exception
    handler. -/
structure ProcessedPost where
  item : ListingItem
  comments_extracted : Nat
  extraction_success : Bool
  error : Option String
deriving DecidableEq

/-- The summary dict (lines 674-682); processing_time, an ambient wall-clock
    reading, is omitted. -/
structure RunSummary where
  subreddit : String
  total_posts_found : Nat
  total_posts_processed : Nat
  total_comments : Nat
  time_range_days : Nat
  sort_method : String
deriving DecidableEq

/-- Listing-mode result: the summary is none for the bare empty return at
    line 595 and the error field none unless the outer handler at line 694
    ran. -/
structure OrchResult (γ : Type _) where
  posts : List ProcessedPost
  comments : List (TaggedComment γ)
  summary : Option RunSummary
  error : Option String

/-- Lines 620-650 and 664-672: process one listing item given the outcome of
    its per-item extraction. The Except input models the claim's premise of a
    raising extraction, which the handler records on the item (error string,
    success false) and swallows; an empty comment list marks the item
    unsuccessful without an error; otherwise the comments are truncated to
    max_comments_per_post, tagged with the item's metadata, and the item is
    marked successful. -/
def processOneItem {γ : Type _} (maxC : Nat) (it : ListingItem)
    (r : Except String (List γ)) : ProcessedPost × List (TaggedComment γ) :=
  match r with
  | .error msg =>
    ({ item := it, comments_extracted := 0, extraction_success := false,
       error := some msg }, [])
  | .ok cs =>
    if cs.isEmpty then
      ({ item := it, comments_extracted := 0, extraction_success := false,
         error := none }, [])
    else
      let tagged : List (TaggedComment γ) := (cs.take maxC).map (fun c =>
        { base := c, post_id := it.id, post_title := it.title,
          post_score := it.score, post_author := it.author,
          post_created_time := it.created_time })
      ({ item := it, comments_extracted := tagged.length,
         extraction_success := true, error := none }, tagged)

/-- One iteration of the per-item loop, threading the aggregate posts,
    comments and total_comments counter. -/
def perItemStep {γ : Type _} (maxC : Nat)
    (extract : Nat → Except String (List γ))
    (st : List ProcessedPost × List (TaggedComment γ) × Nat)
    (p : Nat × ListingItem) :
    List ProcessedPost × List (TaggedComment γ) × Nat :=
  let r := processOneItem maxC p.2 (extract p.1)
  (st.1 ++ [r.1], st.2.1 ++ r.2, st.2.2 + r.2.length)

/-- The per-item loop of extract_subreddit_comments (lines 610-672). -/
def perItemLoop {γ : Type _} (maxC : Nat)
    (extract : Nat → Except String (List γ)) (items : List ListingItem) :
    List ProcessedPost × List (TaggedComment γ) × Nat :=
  (items.enum).foldl (perItemStep maxC extract) ([], [], 0)

/-- The items the per-item loop actually visits (lines 598-602): the listing
    filtered by the exact window when one is set, truncated to max_posts. -/
def selectedItems (listing : List ListingItem) (time_range_days : Nat)
    (now : ℚ) (max_posts : Nat) : List ListingItem :=
  (if time_range_days ≠ 0 then
     filter_posts_by_time_range listing time_range_days now
   else listing).take max_posts

/-- extract_subreddit_comments (lines 583-694) with the network abstracted:
    listing is what get_subreddit_posts returned (it swallows its own
    exceptions and returns a list) and extract i the per-item extraction
    outcome for the i-th surviving item. An empty listing returns the bare
    empty dict of line 595 — posts, comments empty, summary the empty dict,
    and no error key. -/
def extract_subreddit_comments {γ : Type _} (subreddit sort : String)
    (time_range_days max_posts max_comments_per_post : Nat) (now : ℚ)
    (listing : List ListingItem)
    (extract : Nat → Except String (List γ)) : OrchResult γ :=
  if listing.isEmpty then
    { posts := [], comments := [], summary := none, error := none }
  else
    let items := selectedItems listing time_range_days now max_posts
    let lp := perItemLoop max_comments_per_post extract items
    { posts := lp.1
      comments := lp.2.1
      summary := some { subreddit := subreddit
                        total_posts_found := items.length
                        total_posts_processed := lp.1.length
                        total_comments := lp.2.2
                        time_range_days := time_range_days
                        sort_method := sort }
      error := none }

/-- The reddit_time_range string computed at line 591. -/
def redditTimeRange (time_range_days : Nat) : String :=
  if time_range_days ≤ 7 then "week"
  else if time_range_days ≤ 30 then "month" else "year"

/-- The query parameters get_subreddit_posts builds (lines 520-527): sort, a t
    parameter for top/controversial, and a limit of min(limit, 500) only when
    more than 25 items are requested. -/
def subredditListingParams (sort time_range : String) (limit : Nat) :
    List (String × String) :=
  let params := if sort = "top" ∨ sort = "controversial" then
      [("sort", sort), ("t", time_range)]
    else [("sort", sort)]
  if limit > 25 then params ++ [("limit", toString (min limit 500))] else params

/-- The limit parameter a listing-mode run sends for the initial listing:
    extract_subreddit_comments (line 592) passes max_posts unchanged to
    get_subreddit_posts, which builds the parameters above. -/
def listingRequestLimit (sort : String) (time_range_days max_posts : Nat) :
    Option String :=
  (subredditListingParams sort (redditTimeRange time_range_days) max_posts).lookup "limit"

/-- Fixture item for claim C4's witness. -/
def c4_item (n : Nat) : ListingItem :=
  { id := toString n, title := "post", author := "ann", score := 1,
    num_comments := 2, created_utc := 0, created_time := 0, url := "u",
    subreddit := "s", selftext := "", domain := "d", upvote_frac := 1 }

/-- Fixture listing for claim C4's witness: three items. -/
def c4_listing : List ListingItem := [c4_item 0, c4_item 1, c4_item 2]

/-- Fixture oracle for claim C4's witness: item 2 of 3 (index 1) raises. -/
def c4_extract : Nat → Except String (List Unit) :=
  fun i => if i = 1 then .error "simulated fetch error" else .ok [(), ()]

/-- Rendered-markup DOM: an element with tag, attributes and children, or a
    text node. A parsed document is addressed by paths (child-index lists). -/
inductive HNode where
  | elem : String → List (String × String) → List HNode → HNode
  | textNode : String → HNode

/-- Children of a node (text nodes have none). -/
def HNode.childrenOf : HNode → List HNode
  | .elem _ _ cs => cs
  | .textNode _ => []

/-- The node a path addresses, if any. -/
def nodeAt? : List Nat → HNode → Option HNode
  | [], n => some n
  | i :: p, n =>
    match (HNode.childrenOf n).get? i with
    | some c => nodeAt? p c
    | none => none

mutual

/-- All node paths of a tree in document (pre-)order; the root is []. -/
def allPathsOf : HNode → List (List Nat)
  | .textNode _ => [[]]
  | .elem _ _ cs => [] :: allPathsOfL 0 cs

/-- Paths of a child forest starting at child index i. -/
def allPathsOfL : Nat → List HNode → List (List Nat)
  | _, [] => []
  | i, c :: cs => (allPathsOf c).map (fun p => i :: p) ++ allPathsOfL (i + 1) cs

end

/-- Attribute of the element at a path. -/
def attrAt (doc : HNode) (p : List Nat) (k : String) : Option String :=
  match nodeAt? p doc with
  | some (.elem _ attrs _) => attrs.lookup k
  | _ => none

/-- Tag of the element at a path. -/
def tagAt (doc : HNode) (p : List Nat) : Option String :=
  match nodeAt? p doc with
  | some (.elem t _ _) => some t
  | _ => none

/-- Content of the text node at a path. -/
def textAt (doc : HNode) (p : List Nat) : Option String :=
  match nodeAt? p doc with
  | some (.textNode s) => some s
  | _ => none

/-- XPath reads a missing class attribute as the empty string. -/
def classAt (doc : HNode) (p : List Nat) : String := (attrAt doc p "class").getD ""

/-- The path addresses an element with this tag. -/
def hasTag (doc : HNode) (p : List Nat) (t : String) : Bool := tagAt doc p == some t

/-- contains(@class, s) at a path. -/
def classHas (doc : HNode) (p : List Nat) (s : String) : Bool :=
  strContains (classAt doc p) s

/-- div[@data-type='comment'] at a path. -/
def isCommentDiv (doc : HNode) (p : List Nat) : Bool :=
  hasTag doc p "div" && (attrAt doc p "data-type" == some "comment")

/-- ctx is a (possibly improper) prefix of p. -/
def pathExtends : List Nat → List Nat → Bool
  | _, [] => true
  | [], _ :: _ => false
  | i :: p, j :: q => i == j && pathExtends p q

/-- p addresses a proper descendant of ctx. -/
def properDesc (p ctx : List Nat) : Bool :=
  pathExtends p ctx && decide (ctx.length < p.length)

/-- All proper prefixes of a path: its ancestors in the document. -/
def properPrefixes : List Nat → List (List Nat)
  | [] => []
  | i :: p => [] :: (properPrefixes p).map (fun q => i :: q)

/-- The path addresses a text node. -/
def isTextPath (doc : HNode) (p : List Nat) : Bool := (textAt doc p).isSome

/-- p is a following sibling of q (same parent, later child index). -/
def followsSibling (p q : List Nat) : Bool :=
  p.dropLast == q.dropLast &&
    match p.getLast?, q.getLast? with
    | some i, some j => decide (j < i)
    | _, _ => false

/-- All document paths in order. -/
def docPaths (doc : HNode) : List (List Nat) := allPathsOf doc

/-- A structural query: the document paths satisfying a predicate, in
    document order (XPath node-set semantics: deduplicated, document
    order). -/
def selPaths (doc : HNode) (pred : List Nat → Bool) : List (List Nat) :=
  (docPaths doc).filter pred

/-- .//a[contains(@class, 'author')]/@href — first href, if any. -/
def selAuthorHref (doc : HNode) (ctx : List Nat) : Option String :=
  ((selPaths doc (fun p => properDesc p ctx && hasTag doc p "a" &&
      classHas doc p "author")).filterMap (fun p => attrAt doc p "href")).head?

/-- .//div[@class='md']/p/text() — the text values, in order. -/
def selMdPText (doc : HNode) (ctx : List Nat) : List String :=
  (selPaths doc (fun p => isTextPath doc p &&
      hasTag doc p.dropLast "p" &&
      hasTag doc p.dropLast.dropLast "div" &&
      (classAt doc p.dropLast.dropLast == "md") &&
      properDesc p.dropLast.dropLast ctx)).filterMap (fun p => textAt doc p)

/-- .//div[contains(@class, 'usertext-body')]/div/p/text(). -/
def selUtbDivPText (doc : HNode) (ctx : List Nat) : List String :=
  (selPaths doc (fun p => isTextPath doc p &&
      hasTag doc p.dropLast "p" &&
      hasTag doc p.dropLast.dropLast "div" &&
      hasTag doc p.dropLast.dropLast.dropLast "div" &&
      classHas doc p.dropLast.dropLast.dropLast "usertext-body" &&
      properDesc p.dropLast.dropLast.dropLast ctx)).filterMap (fun p => textAt doc p)

/-- .//div[contains(@class, 'usertext-body')]//text(). -/
def selUtbAllText (doc : HNode) (ctx : List Nat) : List String :=
  (selPaths doc (fun p => isTextPath doc p &&
      (properPrefixes p).any (fun q => properDesc q ctx && hasTag doc q "div" &&
        classHas doc q "usertext-body"))).filterMap (fun p => textAt doc p)

/-- .//div[@class='md']//text(). -/
def selMdAllText (doc : HNode) (ctx : List Nat) : List String :=
  (selPaths doc (fun p => isTextPath doc p &&
      (properPrefixes p).any (fun q => properDesc q ctx && hasTag doc q "div" &&
        (classAt doc q == "md")))).filterMap (fun p => textAt doc p)

/-- .//p//text(). -/
def selPAllText (doc : HNode) (ctx : List Nat) : List String :=
  (selPaths doc (fun p => isTextPath doc p &&
      (properPrefixes p).any (fun q => properDesc q ctx &&
        hasTag doc q "p"))).filterMap (fun p => textAt doc p)

/-- .//div[contains(@class, 'Comment')]//text(). -/
def selCommentClassText (doc : HNode) (ctx : List Nat) : List String :=
  (selPaths doc (fun p => isTextPath doc p &&
      (properPrefixes p).any (fun q => properDesc q ctx && hasTag doc q "div" &&
        classHas doc q "Comment"))).filterMap (fun p => textAt doc p)

/-- .//div[contains(@class, 'RichTextJSON-root')]//text(). -/
def selRichTextJson (doc : HNode) (ctx : List Nat) : List String :=
  (selPaths doc (fun p => isTextPath doc p &&
      (properPrefixes p).any (fun q => properDesc q ctx && hasTag doc q "div" &&
        classHas doc q "RichTextJSON-root"))).filterMap (fun p => textAt doc p)

/-- .//text() — every text value below ctx, in order. -/
def selAllText (doc : HNode) (ctx : List Nat) : List String :=
  (selPaths doc (fun p => isTextPath doc p && properDesc p ctx)).filterMap
    (fun p => textAt doc p)

/-- .//span[contains(@class, 'likes')]/@title — first value. -/
def selLikesTitle (doc : HNode) (ctx : List Nat) : Option String :=
  ((selPaths doc (fun p => properDesc p ctx && hasTag doc p "span" &&
      classHas doc p "likes")).filterMap (fun p => attrAt doc p "title")).head?

/-- .//span[contains(@class, 'score')]/@title — first value. -/
def selScoreTitle (doc : HNode) (ctx : List Nat) : Option String :=
  ((selPaths doc (fun p => properDesc p ctx && hasTag doc p "span" &&
      classHas doc p "score")).filterMap (fun p => attrAt doc p "title")).head?

/-- .//span[contains(@class, 'score')]/text() — first value. -/
def selScoreText (doc : HNode) (ctx : List Nat) : Option String :=
  ((selPaths doc (fun p => isTextPath doc p && hasTag doc p.dropLast "span" &&
      classHas doc p.dropLast "score" && properDesc p.dropLast ctx)).filterMap
    (fun p => textAt doc p)).head?

/-- .//div[contains(@class, 'score')]//text() — first value. -/
def selScoreDivText (doc : HNode) (ctx : List Nat) : Option String :=
  ((selPaths doc (fun p => isTextPath doc p &&
      (properPrefixes p).any (fun q => properDesc q ctx && hasTag doc q "div" &&
        classHas doc q "score"))).filterMap (fun p => textAt doc p)).head?

/-- .//time/@datetime — first value. -/
def selTimeDatetime (doc : HNode) (ctx : List Nat) : Option String :=
  ((selPaths doc (fun p => properDesc p ctx && hasTag doc p "time")).filterMap
    (fun p => attrAt doc p "datetime")).head?

/-- .//time/@title — first value. -/
def selTimeTitle (doc : HNode) (ctx : List Nat) : Option String :=
  ((selPaths doc (fun p => properDesc p ctx && hasTag doc p "time")).filterMap
    (fun p => attrAt doc p "title")).head?

/-- Reply selector 1: .//div[@data-type='comment']
    [not(ancestor::div[@data-type='comment'])] — the ancestor axis ranges
    over the whole document. -/
def selReplies1 (doc : HNode) (ctx : List Nat) : List (List Nat) :=
  selPaths doc (fun p => properDesc p ctx && isCommentDiv doc p &&
    !((properPrefixes p).any (fun q => isCommentDiv doc q)))

/-- Reply selector 2: .//div[contains(@class, 'child')]/div[@data-type='comment']. -/
def selReplies2 (doc : HNode) (ctx : List Nat) : List (List Nat) :=
  selPaths doc (fun p => isCommentDiv doc p && hasTag doc p.dropLast "div" &&
    classHas doc p.dropLast "child" && properDesc p.dropLast ctx)

/-- Reply selector 3: .//div[contains(@class, 'child')]//div[@data-type='comment']. -/
def selReplies3 (doc : HNode) (ctx : List Nat) : List (List Nat) :=
  selPaths doc (fun p => isCommentDiv doc p &&
    (properPrefixes p).any (fun q => properDesc q ctx && hasTag doc q "div" &&
      classHas doc q "child"))

/-- Reply selector 4: .//div[contains(@class, 'thing') and @data-type='comment']. -/
def selReplies4 (doc : HNode) (ctx : List Nat) : List (List Nat) :=
  selPaths doc (fun p => properDesc p ctx && isCommentDiv doc p &&
    classHas doc p "thing")

/-- Reply selector 5: .//div[contains(@class, 'comment') and
    not(contains(@class, 'parent'))]. -/
def selReplies5 (doc : HNode) (ctx : List Nat) : List (List Nat) :=
  selPaths doc (fun p => properDesc p ctx && hasTag doc p "div" &&
    classHas doc p "comment" && !classHas doc p "parent")

/-- Reply selector 6: .//div[contains(@class, 'Comment') and
    contains(@class, 'nested')]. -/
def selReplies6 (doc : HNode) (ctx : List Nat) : List (List Nat) :=
  selPaths doc (fun p => properDesc p ctx && hasTag doc p "div" &&
    classHas doc p "Comment" && classHas doc p "nested")

/-- Chain selector 1: .//following-sibling::div[@data-type='comment'] — the
    following siblings of ctx or of any of its descendants. -/
def selChain1 (doc : HNode) (ctx : List Nat) : List (List Nat) :=
  selPaths doc (fun p => isCommentDiv doc p &&
    (docPaths doc).any (fun q => (q == ctx || properDesc q ctx) &&
      followsSibling p q))

/-- Chain selector 2: .//div[contains(@class, 'morechildren')]
    /following-sibling::div[@data-type='comment']. -/
def selChain2 (doc : HNode) (ctx : List Nat) : List (List Nat) :=
  selPaths doc (fun p => isCommentDiv doc p &&
    (docPaths doc).any (fun q => properDesc q ctx && hasTag doc q "div" &&
      classHas doc q "morechildren" && followsSibling p q))

/-- Chain selector 3: .//div[contains(@class, 'child')]//div. -/
def selChain3 (doc : HNode) (ctx : List Nat) : List (List Nat) :=
  selPaths doc (fun p => hasTag doc p "div" &&
    (properPrefixes p).any (fun q => properDesc q ctx && hasTag doc q "div" &&
      classHas doc q "child"))

/-- Main selector 1: //div[@class='sitetable nestedlisting']
    /div[@data-type='comment']. -/
def selMain1 (doc : HNode) : List (List Nat) :=
  selPaths doc (fun p => !p.isEmpty && isCommentDiv doc p &&
    hasTag doc p.dropLast "div" &&
    (classAt doc p.dropLast == "sitetable nestedlisting"))

/-- Main selector 2: //div[contains(@class, 'sitetable')]
    //div[@data-type='comment']. -/
def selMain2 (doc : HNode) : List (List Nat) :=
  selPaths doc (fun p => isCommentDiv doc p &&
    (properPrefixes p).any (fun q => hasTag doc q "div" &&
      classHas doc q "sitetable"))

/-- Main selector 3: //div[@data-type='comment']. -/
def selMain3 (doc : HNode) : List (List Nat) :=
  selPaths doc (fun p => isCommentDiv doc p)

/-- Main selector 4: //div[contains(@class, 'comment')]. -/
def selMain4 (doc : HNode) : List (List Nat) :=
  selPaths doc (fun p => hasTag doc p "div" && classHas doc p "comment")

/-- Main selector 5: //div[contains(@class, 'Comment')]. -/
def selMain5 (doc : HNode) : List (List Nat) :=
  selPaths doc (fun p => hasTag doc p "div" && classHas doc p "Comment")

/-- Main selector 6: //div[contains(@class, 'thing')][@data-type='comment']. -/
def selMain6 (doc : HNode) : List (List Nat) :=
  selPaths doc (fun p => hasTag doc p "div" && classHas doc p "thing" &&
    (attrAt doc p "data-type" == some "comment"))

/-- //div — for the fallback sweep. -/
def selAllDivs (doc : HNode) : List (List Nat) :=
  selPaths doc (fun p => hasTag doc p "div")

/-- Python `a or b` on two optional strings (None and '' are falsy). -/
def pyOrOptStr (a b : Option String) : Option String :=
  match a with
  | some s => if s = "" then b else some s
  | none => b

/-- ' '.join. -/
def joinSpace : List String → String
  | [] => ""
  | [s] => s
  | s :: rest => s ++ " " ++ joinSpace rest

/-- ' '.join([text.strip() for text in body_texts if text.strip()]). -/
def bodyJoin (texts : List String) : String :=
  joinSpace ((texts.map pyStrip).filter (fun t => t ≠ ""))

/-- The body-selector loop (lines 195-211): take each selector's results in
    order; on a non-empty result list, join its stripped texts and stop if
    the join is non-empty (an all-whitespace result overwrites comment_body
    with '' and the scan continues, exactly as the source does). -/
def bodyCascadeGo : Option String → List (List String) → Option String
  | cur, [] => cur
  | cur, texts :: rest =>
    if texts.isEmpty then bodyCascadeGo cur rest
    else
      let j := bodyJoin texts
      if j ≠ "" then some j else bodyCascadeGo (some j) rest

/-- The UI labels discarded by the fallback body heuristic (line 218). -/
def skip_terms : List String :=
  ["reply", "permalink", "save", "report", "give award", "share", "level 1",
   "level 2", "level 3", "points", "point", "hour ago", "hours ago",
   "day ago", "days ago", "minute ago", "minutes ago"]

/-- The fallback body heuristic (lines 214-224): over all text below the
    node, keep stripped strings longer than 10 characters containing no skip
    term, and join the first three; comment_body is only overwritten when
    something survived. -/
def fallbackBody (doc : HNode) (ctx : List Nat) (cur : Option String) :
    Option String :=
  let filtered := ((selAllText doc ctx).map pyStrip).filter
    (fun t => decide (t.length > 10) &&
      !(skip_terms.any (fun sk => strContains (pyLower t) sk)))
  if filtered.isEmpty then cur else some (joinSpace (filtered.take 3))

/-- The score-selector loop (lines 229-245): first truthy value that parses
    as an int; unparsable truthy values are skipped by the except. -/
def scoreCascade : List (Option String) → Option Int
  | [] => none
  | v :: rest =>
    match v with
    | some s =>
      if s ≠ "" then
        match parseIntPy s with
        | some n => some n
        | none => scoreCascade rest
      else scoreCascade rest
    | none => scoreCascade rest

/-- First truthy value of a selector cascade (the time loop, lines 253-264). -/
def firstTruthy : List (Option String) → Option String
  | [] => none
  | some s :: rest => if s ≠ "" then some s else firstTruthy rest
  | none :: rest => firstTruthy rest

/-- The suffix after the first occurrence of a pattern, if present. -/
def afterSub (pat : List Char) : List Char → Option (List Char)
  | [] => if pat.isEmpty then some [] else none
  | c :: cs =>
    if listHasPre pat (c :: cs) then some (List.drop pat.length (c :: cs))
    else afterSub pat cs

/-- url.split("/r/")[1].split("/")[0] if "/r/" in url else None
    (line 248): the segment after the first "/r/" up to the next slash. -/
def subredditFromUrl (url : String) : Option String :=
  match afterSub ("/r/".data) url.data with
  | some rest => some (String.mk (rest.takeWhile (fun c => c ≠ '/')))
  | none => none

/-- One flattened comment record as built by parse_comment (lines 268-282). -/
structure HComment where
  comment_id : String
  parent_id : Option String
  parent_chain : Option String
  author : String
  author_id : Option String
  subreddit : Option String
  link : Option String
  created_time : Option String
  body : String
  body_processed : String
  score : Int
  depth : Nat
  reply_count : Nat
deriving DecidableEq

/-- The emission check and record construction of parse_comment (lines
    266-288), taking the cascades' results: emit only when the normalized
    body is truthy and strips to a positive length. Returns the grown
    accumulator and the return value of line 286 — None when nothing was
    emitted, otherwise comment_id or comment_<n> where n is the list length
    AFTER the append (one more than the ordinal stored in the record at
    line 269). -/
def parse_comment_finish (cid parent_id author1 author_id subreddit link
    created_time : Option String) (score : Option Int)
    (normalized_body : Option String) (depth : Nat) (acc : List HComment) :
    List HComment × Option String :=
  match normalized_body with
  | some nb =>
    if (pyStrip nb).length > 0 then
      let rec0 : HComment :=
        { comment_id := pyOrStr cid ("comment_" ++ toString acc.length)
          parent_id := parent_id
          parent_chain := if pyOptTruthy parent_id then parent_id else none
          author := pyOrStr author1 "[unknown]"
          author_id := author_id
          subreddit := subreddit
          link := (match link with
            | some l => if l ≠ "" then some ("https://www.reddit.com" ++ l) else none
            | none => none)
          created_time := created_time
          body := nb
          body_processed := process_text_with_nltk nb
          score := score.getD 0
          depth := depth
          reply_count := 0 }
      (acc ++ [rec0],
       some (pyOrStr cid ("comment_" ++ toString (acc.length + 1))))
    else (acc, none)
  | none => (acc, none)

/-- parse_comment (lines 183-288): resolve the node's author, ids, body,
    score and timestamp through the fallback cascades and finish with the
    emission step above. -/
def parse_comment (doc : HNode) (url : String) (ctx : List Nat)
    (parent_id : Option String) (depth : Nat) (acc : List HComment) :
    List HComment × Option String :=
  let author0 := pyOrOptStr (attrAt doc ctx "data-author") (selAuthorHref doc ctx)
  let author1 := match author0 with
    | some s => if (s != "") && pyStartsWith s "/user/" then
        some (pyReplace s "/user/" "") else some s
    | none => none
  let link := attrAt doc ctx "data-permalink"
  let cid := attrAt doc ctx "data-fullname"
  let comment_body0 := bodyCascadeGo none
    [selMdPText doc ctx, selUtbDivPText doc ctx, selUtbAllText doc ctx,
     selMdAllText doc ctx, selPAllText doc ctx, selCommentClassText doc ctx,
     selRichTextJson doc ctx]
  let comment_body := if pyOptTruthy comment_body0 then comment_body0
    else fallbackBody doc ctx comment_body0
  let normalized_body : Option String := match comment_body with
    | some s => if s ≠ "" then some (normalize_text s) else none
    | none => none
  let score := scoreCascade
    [selLikesTitle doc ctx, selScoreTitle doc ctx, selScoreText doc ctx,
     attrAt doc ctx "data-score", selScoreDivText doc ctx]
  let subreddit := subredditFromUrl url
  let created_time := firstTruthy
    [selTimeDatetime doc ctx, selTimeTitle doc ctx, attrAt doc ctx "data-timestamp"]
  parse_comment_finish cid parent_id author1
    (attrAt doc ctx "data-author-fullname") subreddit link created_time score
    normalized_body depth acc

/-- State threaded through the reply loops of process_replies: the comment
    accumulator, replies_found, and the per-call processed_ids set. -/
structure PRState where
  acc : List HComment
  found : Nat
  processed : List String

/-- The inner reply-box loop (lines 311-325), abstracted over the recursive
    call into process_replies. -/
def prBoxLoop (recurse : List Nat → Option String → List HComment → List HComment × Nat)
    (doc : HNode) (url : String) (pid : Option String) (depth : Nat) :
    List (List Nat) → PRState → PRState
  | [], st => st
  | box :: boxes, st =>
    let reply_id := pyOrOptStr (attrAt doc box "data-fullname") (attrAt doc box "id")
    if pyOptTruthy reply_id && decide (reply_id.getD "" ∈ st.processed) then
      prBoxLoop recurse doc url pid depth boxes st
    else
      let processed1 := if pyOptTruthy reply_id then
          reply_id.getD "" :: st.processed else st.processed
      let pr := parse_comment doc url box pid (depth + 1) st.acc
      if pyOptTruthy pr.2 then
        let nested := recurse box pr.2 pr.1
        prBoxLoop recurse doc url pid depth boxes
          { acc := nested.1, found := st.found + 1 + nested.2,
            processed := processed1 }
      else
        prBoxLoop recurse doc url pid depth boxes
          { acc := pr.1, found := st.found, processed := processed1 }

/-- The reply-selector loop (lines 308-325). -/
def prSelLoop (recurse : List Nat → Option String → List HComment → List HComment × Nat)
    (doc : HNode) (url : String) (pid : Option String) (depth : Nat) :
    List (List (List Nat)) → PRState → PRState
  | [], st => st
  | sel :: sels, st =>
    prSelLoop recurse doc url pid depth sels
      (prBoxLoop recurse doc url pid depth sel st)

/-- The chain-item loop (lines 337-344): only items carrying a data-fullname
    not yet processed are parsed; no recursion into their subtrees. -/
def chainItemLoop (doc : HNode) (url : String) (pid : Option String)
    (depth : Nat) : List (List Nat) → PRState → PRState
  | [], st => st
  | item :: items, st =>
    let chain_id := attrAt doc item "data-fullname"
    if pyOptTruthy chain_id && !(decide (chain_id.getD "" ∈ st.processed)) then
      let processed1 := chain_id.getD "" :: st.processed
      let pr := parse_comment doc url item pid (depth + 1) st.acc
      if pyOptTruthy pr.2 then
        chainItemLoop doc url pid depth items
          { acc := pr.1, found := st.found + 1, processed := processed1 }
      else
        chainItemLoop doc url pid depth items
          { acc := pr.1, found := st.found, processed := processed1 }
    else chainItemLoop doc url pid depth items st

/-- The chain-selector fallback loop (lines 330-344); each selector's items
    are truncated to ten. -/
def chainSelLoop (doc : HNode) (url : String) (pid : Option String)
    (depth : Nat) : List (List (List Nat)) → PRState → PRState
  | [], st => st
  | sel :: sels, st =>
    chainSelLoop doc url pid depth sels
      (chainItemLoop doc url pid depth (sel.take 10) st)

/-- process_replies (lines 290-346). The fuel only bounds the recursion: the
    source's own depth > 15 guard cuts every chain after at most 17 nested
    calls, so any fuel of at least 17 (32 is passed) behaves identically; a
    fuel-independence lemma is proved below. Returns the grown accumulator
    and replies_found. -/
def process_replies_go (fuel : Nat) (doc : HNode) (url : String)
    (what : List Nat) (parent_comment_id : Option String) (depth : Nat)
    (acc : List HComment) : List HComment × Nat :=
  match fuel with
  | 0 => (acc, 0)
  | fuel + 1 =>
    if depth > 15 then (acc, 0)
    else
      let st1 := prSelLoop
        (fun box pid2 acc2 => process_replies_go fuel doc url box pid2 (depth + 1) acc2)
        doc url parent_comment_id depth
        [selReplies1 doc what, selReplies2 doc what, selReplies3 doc what,
         selReplies4 doc what, selReplies5 doc what, selReplies6 doc what]
        { acc := acc, found := 0, processed := [] }
      let st2 := if st1.found = 0 && decide (depth < 5) then
          chainSelLoop doc url parent_comment_id depth
            [selChain1 doc what, selChain2 doc what, selChain3 doc what] st1
        else st1
      (st2.acc, st2.found)

/-- process_replies with its recursion bound fixed above the depth guard. -/
def process_replies (doc : HNode) (url : String) (what : List Nat)
    (parent_comment_id : Option String) (depth : Nat) (acc : List HComment) :
    List HComment × Nat :=
  process_replies_go 32 doc url what parent_comment_id depth acc

/-- The top-level comment loop of parse_post_comments for one found item
    (lines 370-375). -/
def mainItemStep (doc : HNode) (url : String) (acc : List HComment)
    (item : List Nat) : List HComment :=
  let pr := parse_comment doc url item none 0 acc
  if pyOptTruthy pr.2 then (process_replies doc url item pr.2 0 pr.1).1
  else pr.1

/-- The fallback sweep of parse_post_comments (lines 380-389): any div whose
    gathered text is longer than 50 characters and mentions reply. -/
def fallbackDivStep (doc : HNode) (url : String) (acc : List HComment)
    (divp : List Nat) : List HComment :=
  let texts := selAllText doc divp
  if texts.isEmpty then acc
  else
    let combined := joinSpace ((texts.map pyStrip).filter (fun t => t ≠ ""))
    if decide (combined.length > 50) && strContains (pyLower combined) "reply" then
      (parse_comment doc url divp none 0 acc).1
    else acc

/-- parse_post_comments (lines 179-392): the first main selector with any
    match wins; each of its items is parsed at depth 0 and its replies walked;
    with no match at all the fallback sweep runs. -/
def parse_post_comments (doc : HNode) (url : String) : List HComment :=
  let mains := [selMain1 doc, selMain2 doc, selMain3 doc, selMain4 doc,
                selMain5 doc, selMain6 doc]
  match mains.find? (fun items => !items.isEmpty) with
  | some items => items.foldl (mainItemStep doc url) []
  | none => (selAllDivs doc).foldl (fallbackDivStep doc url) []

/-- Pandas-style dedupe at the HTML parser's record type. -/
def dedupe_html_comments : List HComment → List HComment :=
  pandasDedupe (fun c => c.body)

/-- Pandas-style dedupe at the JSON parser's record type. -/
def dedupe_json_comments : List JComment → List JComment :=
  pandasDedupe (fun c => c.body)

/-- Fixture for claim C1: one top-level comment with a nested reply, both
    lacking a data-fullname, exactly as old-reddit markup nests replies in a
    child container. -/
def c1_fixture : HNode :=
  .elem "html" [] [
    .elem "div" [("class", "sitetable nestedlisting")] [
      .elem "div" [("data-type", "comment")] [
        .elem "div" [("class", "md")] [
          .elem "p" [] [.textNode "Parent body text here"]],
        .elem "div" [("class", "child")] [
          .elem "div" [("data-type", "comment")] [
            .elem "div" [("class", "md")] [
              .elem "p" [] [.textNode "Reply body text here"]]]]]]]

/-- Fixture for claim C2's witness: one comment with a source id. -/
def c2_html_fixture : HNode :=
  .elem "html" [] [
    .elem "div" [("class", "sitetable nestedlisting")] [
      .elem "div" [("data-type", "comment"), ("data-fullname", "t1_abc")] [
        .elem "div" [("class", "md")] [
          .elem "p" [] [.textNode "Nice thoughtful comment"]]]]]

/-- The record parse_post_comments emits on c2_html_fixture. -/
def c2w_record : HComment :=
  { comment_id := "t1_abc", parent_id := none, parent_chain := none,
    author := "[unknown]", author_id := none, subreddit := none,
    link := none, created_time := none, body := "Nice thoughtful comment",
    body_processed := "Nice thoughtful comment", score := 0, depth := 0,
    reply_count := 0 }

/- ===================== helper lemmas ===================== -/

theorem jsize_pos (v : JVal) : 1 ≤ jsize v := by
  cases v <;> simp [jsize]

theorem jlookup_size : ∀ (fs : List (String × JVal)) (k : String) (v : JVal),
    jlookup fs k = some v → jsize v ≤ jsizeF fs
  | [], _, _, h => by simp [jlookup] at h
  | (k0, v0) :: fs, k, v, h => by
      by_cases hk : k0 = k
      · simp only [jlookup, if_pos hk, Option.some.injEq] at h
        subst h; simp [jsizeF]
      · simp only [jlookup, if_neg hk] at h
        have := jlookup_size fs k v h
        simp [jsizeF]; omega

theorem jget_truthy_size (data : JVal) (k : String)
    (h : jtruthy (jget data k) = true) : jsize (jget data k) < jsize data := by
  cases data with
  | jobj fs =>
      cases hl : jlookup fs k with
      | none => rw [jget, hl] at h; simp [jtruthy] at h
      | some v =>
          have := jlookup_size fs k v hl
          rw [jget, hl]
          simp only [Option.getD_some, jsize]
          omega
  | jnull => simp [jget, jtruthy] at h
  | jbool b => simp [jget, jtruthy] at h
  | jnum q => simp [jget, jtruthy] at h
  | jstr s => simp [jget, jtruthy] at h
  | jarr xs => simp [jget, jtruthy] at h

theorem jgetD_cases (fs : List (String × JVal)) (k : String) (d : JVal) :
    jgetD (.jobj fs) k d = d ∨ jsize (jgetD (.jobj fs) k d) < jsize (.jobj fs) := by
  cases hl : jlookup fs k with
  | none => left; simp [jgetD, hl]
  | some v =>
      right
      have := jlookup_size fs k v hl
      rw [jgetD, hl]
      simp only [Option.getD_some, jsize]
      omega

theorem jsizeL_mem : ∀ (xs : List JVal) (x : JVal), x ∈ xs → jsize x ≤ jsizeL xs
  | [], x, h => by simp at h
  | x0 :: xs, x, h => by
      rcases List.mem_cons.mp h with h | h
      · subst h; simp [jsizeL]
      · have := jsizeL_mem xs x h; simp [jsizeL]; omega

theorem jIter_size {v : JVal} {ks : List JVal} (h : jIter v = some ks) :
    ∀ x ∈ ks, jsize x ≤ jsize v := by
  cases v <;> simp only [jIter, Option.some.injEq, reduceCtorEq] at h
  case jarr xs =>
      subst h; intro x hx
      have := jsizeL_mem xs x hx
      simp [jsize]; omega
  case jstr s =>
      subst h; intro x hx
      simp only [List.mem_map] at hx
      obtain ⟨c, _, rfl⟩ := hx
      simp [jsize]
  case jobj fs =>
      subst h; intro x hx
      simp only [List.mem_map] at hx
      obtain ⟨kv, _, rfl⟩ := hx
      simp [jsize]

theorem repliesChildren_size (data child : JVal)
    (h : child ∈ repliesChildren data) : jsize child < jsize data := by
  simp only [repliesChildren] at h
  split at h
  case isFalse => simp at h
  case isTrue hcond =>
  have hrep := jget_truthy_size data "replies" hcond
  split at h
  case h_2 => simp at h
  case h_1 rfs0 hr =>
  rw [hr] at hrep
  split at h
  case h_2 => simp at h
  case h_1 rfs hrd =>
  rw [hr] at hrd
  have hrdsz : jsize (JVal.jobj rfs) < jsize (JVal.jobj rfs0) ∨ rfs = [] := by
    rcases jgetD_cases rfs0 "data" (.jobj []) with he | hlt
    · right; rw [hrd] at he; cases he; rfl
    · left; rw [hrd] at hlt; exact hlt
  split at h
  case h_2 => simp at h
  case h_1 ks hIter =>
  rcases jgetD_cases rfs "children" (.jarr []) with he | hlt
  · rw [he] at hIter
    simp only [jIter, Option.some.injEq] at hIter
    subst hIter; simp at h
  · have hc := jIter_size hIter child h
    have h1 := jsize_pos (jgetD (.jobj rfs) "children" (.jarr []))
    rcases hrdsz with hrdsz | rfl
    · omega
    · have h2 : jsize (JVal.jobj ([] : List (String × JVal))) = 1 := by
        simp [jsize, jsizeF]
      omega

theorem jsonCommentGuard_props {cd pid d : JVal} {nb : String} {pc : JVal}
    (hg : jsonCommentGuard cd pid = some (d, nb, pc)) :
    d = jgetD cd "data" (.jobj []) ∧ jtruthy d = true ∧
    jget cd "kind" = .jstr "t1" ∧
    jgetD d "author" (.jstr "[unknown]") ≠ .jstr "[deleted]" ∧
    jgetD d "author" (.jstr "[unknown]") ≠ .jstr "[removed]" ∧
    jgetD d "body" (.jstr "") ≠ .jstr "[deleted]" ∧
    jgetD d "body" (.jstr "") ≠ .jstr "[removed]" ∧
    ∃ bs, jgetD d "body" (.jstr "") = .jstr bs ∧ nb = normalize_text bs ∧
      normalize_text bs ≠ "" ∧ 3 ≤ (pyStrip (normalize_text bs)).length := by
  cases cd with
  | jnull => simp [jsonCommentGuard] at hg
  | jbool b => simp [jsonCommentGuard] at hg
  | jnum q => simp [jsonCommentGuard] at hg
  | jstr s => simp [jsonCommentGuard] at hg
  | jarr xs => simp [jsonCommentGuard] at hg
  | jobj cfs =>
    simp only [jsonCommentGuard] at hg
    split at hg
    case isTrue => exact absurd hg (by simp)
    case isFalse hMore =>
    split at hg
    case isTrue => exact absurd hg (by simp)
    case isFalse hKind =>
    split at hg
    case isTrue => exact absurd hg (by simp)
    case isFalse hData =>
    split at hg
    case isTrue => exact absurd hg (by simp)
    case isFalse hAuthor =>
    split at hg
    case isTrue => exact absurd hg (by simp)
    case isFalse hBody =>
    split at hg
    case h_2 => exact absurd hg (by simp)
    case h_1 bv bs hbs =>
    split at hg
    case isTrue => exact absurd hg (by simp)
    case isFalse hNb =>
    push_neg at hKind hData hAuthor hBody hNb
    split at hg
    case isTrue hPid =>
      split at hg
      case h_2 => exact absurd hg (by simp)
      case h_1 pv ps =>
        rw [Option.some.injEq] at hg
        obtain ⟨hd, hrest⟩ := Prod.mk.injEq .. |>.mp hg
        obtain ⟨hnbe, hpce⟩ := Prod.mk.injEq .. |>.mp hrest
        subst hd; subst hnbe
        exact ⟨rfl, by simpa using hData, hKind.2, hAuthor.1, hAuthor.2,
          hBody.2.1, hBody.2.2, bs, hbs, rfl, hNb.1, hNb.2⟩
    case isFalse hPid =>
      rw [Option.some.injEq] at hg
      obtain ⟨hd, hrest⟩ := Prod.mk.injEq .. |>.mp hg
      obtain ⟨hnbe, hpce⟩ := Prod.mk.injEq .. |>.mp hrest
      subst hd; subst hnbe
      exact ⟨rfl, by simpa using hData, hKind.2, hAuthor.1, hAuthor.2,
        hBody.2.1, hBody.2.2, bs, hbs, rfl, hNb.1, hNb.2⟩

theorem extract_go_none {cd pid : JVal} (h : jsonCommentGuard cd pid = none)
    (fuel depth : Nat) (acc : List JComment) :
    extract_comment_go fuel cd pid depth acc = (acc, 0) := by
  cases fuel with
  | zero => rfl
  | succ f => simp [extract_comment_go, h]

theorem jsonCommentGuard_data_size {cd pid d : JVal} {nb : String} {pc : JVal}
    (hg : jsonCommentGuard cd pid = some (d, nb, pc)) : jsize d < jsize cd := by
  obtain ⟨hd, htr, hkind, -⟩ := jsonCommentGuard_props hg
  cases cd with
  | jobj cfs =>
    subst hd
    rcases jgetD_cases cfs "data" (.jobj []) with he | hlt
    · rw [he] at htr; simp [jtruthy] at htr
    · exact hlt
  | jnull => simp [jget] at hkind
  | jbool b => simp [jget] at hkind
  | jnum q => simp [jget] at hkind
  | jstr s => simp [jget] at hkind
  | jarr xs => simp [jget] at hkind

theorem foldl_congr_mem {α σ : Type _} (l : List α) (f1 f2 : σ → α → σ)
    (h : ∀ s a, a ∈ l → f1 s a = f2 s a) : ∀ s, l.foldl f1 s = l.foldl f2 s := by
  induction l with
  | nil => intro s; rfl
  | cons a l ih =>
    intro s
    simp only [List.foldl_cons]
    rw [h s a (by simp)]
    exact ih (fun s' b hb => h s' b (by simp [hb])) _

theorem extract_emit_congr {r1 r2 : JVal → List JComment → List JComment × Nat}
    {d : JVal} (h : ∀ (a : List JComment) (child : JVal),
      child ∈ repliesChildren d → r1 child a = r2 child a)
    (pid pc : JVal) (nb : String) (depth : Nat) (acc : List JComment) :
    extract_emit r1 pid pc d nb depth acc = extract_emit r2 pid pc d nb depth acc := by
  have hf : ∀ s, (repliesChildren d).foldl (repliesStep r1) s
      = (repliesChildren d).foldl (repliesStep r2) s :=
    foldl_congr_mem _ _ _ (fun s a ha => by
      simp only [repliesStep, h s.1 a ha])
  simp only [extract_emit, hf]

theorem extract_go_fuel_congr : ∀ (n : Nat) (cd pid : JVal) (depth : Nat)
    (acc : List JComment) (f g : Nat), jsize cd ≤ n → jsize cd ≤ f → jsize cd ≤ g →
    extract_comment_go f cd pid depth acc = extract_comment_go g cd pid depth acc := by
  intro n
  induction n with
  | zero =>
    intro cd _ _ _ _ _ hn _ _
    exact absurd hn (by have := jsize_pos cd; omega)
  | succ n ih =>
    intro cd pid depth acc f g hn hf hg2
    have h1 := jsize_pos cd
    obtain ⟨f', rfl⟩ : ∃ f', f = f' + 1 := ⟨f - 1, by omega⟩
    obtain ⟨g', rfl⟩ : ∃ g', g = g' + 1 := ⟨g - 1, by omega⟩
    cases hguard : jsonCommentGuard cd pid with
    | none => rw [extract_go_none hguard, extract_go_none hguard]
    | some val =>
      obtain ⟨d, nb, pc⟩ := val
      have hds := jsonCommentGuard_data_size hguard
      simp only [extract_comment_go, hguard]
      exact extract_emit_congr (fun a child hc => by
        have hcs := repliesChildren_size d child hc
        exact ih child (jget d "id") (depth + 1) a f' g'
          (by omega) (by omega) (by omega)) pid pc nb depth acc

/-- Any sufficient fuel computes extract_comment_from_json: the wrapper's
    choice of jsize cd is immaterial. -/
theorem extract_go_fuel_sufficient {cd pid : JVal} {depth : Nat}
    {acc : List JComment} {f : Nat} (hf : jsize cd ≤ f) :
    extract_comment_go f cd pid depth acc = extract_comment_from_json cd pid depth acc :=
  extract_go_fuel_congr (max f (jsize cd)) cd pid depth acc f (jsize cd)
    (le_max_right _ _) hf le_rfl

theorem foldl_hold {α σ : Type _} {P : σ → Prop} {f : σ → α → σ} :
    ∀ (l : List α) (s : σ), P s → (∀ s' a, a ∈ l → P s' → P (f s' a)) →
      P (l.foldl f s)
  | [], _, hs, _ => hs
  | a :: l, s, hs, hf =>
      foldl_hold l (f s a) (hf s a (by simp) hs)
        (fun s' a' ha' => hf s' a' (by simp [ha']))

theorem extract_go_body_ne : ∀ (fuel : Nat) (cd pid : JVal) (depth : Nat)
    (acc : List JComment), (∀ c ∈ acc, c.body ≠ "") →
    ∀ c ∈ (extract_comment_go fuel cd pid depth acc).1, c.body ≠ "" := by
  intro fuel
  induction fuel with
  | zero => intro cd pid depth acc hacc; simpa [extract_comment_go] using hacc
  | succ fuel ih =>
    intro cd pid depth acc hacc
    cases hguard : jsonCommentGuard cd pid with
    | none => rw [extract_go_none hguard]; exact hacc
    | some val =>
      obtain ⟨d, nb, pc⟩ := val
      have hnb : nb ≠ "" := by
        obtain ⟨-, -, -, -, -, -, -, bs, -, hnbe, hne, -⟩ := jsonCommentGuard_props hguard
        exact hnbe ▸ hne
      simp only [extract_comment_go, hguard, extract_emit]
      have hfold : ∀ c ∈ ((repliesChildren d).foldl
          (repliesStep (fun child a =>
            extract_comment_go fuel child (jget d "id") (depth + 1) a))
          (acc ++ [jsonCommentRecord pid pc d nb depth], 0)).1, c.body ≠ "" := by
        refine foldl_hold (P := fun (st : List JComment × Nat) => ∀ c ∈ st.1, c.body ≠ "") _ _ ?_ ?_
        · intro c hc
          rcases List.mem_append.mp hc with hc | hc
          · exact hacc c hc
          · rcases List.mem_singleton.mp hc with rfl
            exact hnb
        · intro st child _ hst
          exact ih child (jget d "id") (depth + 1) st.1 hst
      split
      · intro c hc
        rcases List.mem_or_eq_of_mem_set hc with hc | rfl
        · exact hfold c hc
        · exact hnb
      · exact hfold

/-- Every comment record parse_reddit_json_comments emits carries a nonempty
    normalized body. -/
theorem parse_reddit_json_comments_body_ne (j : JVal) :
    ∀ c ∈ parse_reddit_json_comments j, c.body ≠ "" := by
  unfold parse_reddit_json_comments
  split
  case h_2 => simp
  case h_1 =>
    split
    case h_2 => simp
    case h_1 =>
      split
      case h_2 => simp
      case h_1 =>
        split
        case h_2 => simp
        case h_1 ks hks =>
          refine foldl_hold (P := fun (acc : List JComment) => ∀ c ∈ acc, c.body ≠ "") _ _ (by simp) ?_
          intro acc child _ hacc
          exact extract_go_body_ne (jsize child) child .jnull 0 acc hacc

/- ===================== claim theorems (JSON parser) ===================== -/

/-- C10: in parse_reddit_json_comments, whenever a node is skipped — its kind
    is the more stub, its author or body is a deleted/removed sentinel, or its
    normalized body strips to fewer than 3 characters — the walker returns the
    accumulator unchanged with count 0: no record is emitted for the node and
    none for anything nested in its replies subtree. -/
theorem C10_skipped_node_emits_nothing (cd pid : JVal) (depth : Nat)
    (acc : List JComment)
    (h : jsonKindMore cd ∨ jsonAuthorDeleted cd ∨ jsonBodyDeleted cd ∨ jsonBodyShort cd) :
    extract_comment_from_json cd pid depth acc = (acc, 0) := by
  cases hguard : jsonCommentGuard cd pid with
  | none => exact extract_go_none hguard _ _ _
  | some val =>
    exfalso
    obtain ⟨d, nb, pc⟩ := val
    obtain ⟨hd, htr, hkind, ha1, ha2, hb1, hb2, bs, hbs, hnbe, hne, hlen⟩ :=
      jsonCommentGuard_props hguard
    rcases h with h | h | h | h
    · rw [jsonKindMore, hkind] at h
      simp at h
    · rw [jsonAuthorDeleted, ← hd] at h
      rcases h with h | h
      · exact ha1 h
      · exact ha2 h
    · rw [jsonBodyDeleted, ← hd] at h
      rcases h with h | h
      · exact hb1 h
      · exact hb2 h
    · rw [jsonBodyShort, ← hd] at h
      obtain ⟨s, hs, hx⟩ := h
      rw [hbs] at hs
      obtain rfl : bs = s := by
        injection hs
      rcases hx with hx | hx
      · exact hne hx
      · omega

/-- Witness for C10: the kind-more fixture nesting a valid t1 descendant
    yields no records at all. -/
theorem C10_witness :
    jsonKindMore c10_fixture ∧
      extract_comment_from_json c10_fixture .jnull 0 [] = ([], 0) :=
  ⟨by unfold jsonKindMore; decide,
    C10_skipped_node_emits_nothing c10_fixture .jnull 0 []
      (Or.inl (by unfold jsonKindMore; decide))⟩

/-- C3 (code bug): on c3_payload — one valid comment whose replies listing
    holds a single kind-more stub — the parser emits exactly one record, so
    zero descendant records exist beneath it, yet its reply_count is 1: the
    accumulation counts every child node of the replies listing, emitted or
    not, contradicting the claim that reply_count equals the number of
    descendant records actually emitted. -/
theorem C3_reply_count_counts_unemitted_stub :
    (parse_reddit_json_comments c3_payload).map (fun c => (c.comment_id, c.reply_count))
        = [(.jstr "a", 1)] ∧
      (parse_reddit_json_comments c3_payload).length = 1 :=
  ⟨by decide, by decide⟩

/-- Counterexample to C2 as stated: the JSON parser copies data.get("id")
    verbatim into comment_id and never synthesizes an ordinal id, so a valid
    comment lacking an id field is emitted with a null comment_id rather than
    a non-empty string. -/
theorem C2_counterexample :
    ¬ (∀ c ∈ parse_reddit_json_comments c2_payload,
        ∃ s, c.comment_id = JVal.jstr s ∧ s ≠ "") := by
  intro hall
  have h1 : (parse_reddit_json_comments c2_payload).map (fun c => c.comment_id)
      = [JVal.jnull] := by decide
  obtain ⟨c, hc, he⟩ := List.exists_of_mem_map
    (show JVal.jnull ∈ (parse_reddit_json_comments c2_payload).map (fun c => c.comment_id) by
      rw [h1]; simp)
  obtain ⟨s, hs, -⟩ := hall c hc
  rw [he] at hs
  exact JVal.noConfusion hs

theorem safe_request_loop_succ (outcomes : Nat → AttemptOutcome) (k a : Nat)
    (delay : ℚ) :
    (safe_request_loop outcomes (k + 1) a delay).1
        = [(a, if a > 0 then min (delay * backoff_factor) max_delay else delay)] ∨
      ∃ d2, (d2 = (if a > 0 then min (delay * backoff_factor) max_delay else delay) ∨
             d2 = (if a > 0 then min (delay * backoff_factor) max_delay else delay) * 3 ∨
             d2 = (if a > 0 then min (delay * backoff_factor) max_delay else delay) * 2) ∧
        (safe_request_loop outcomes (k + 1) a delay).1
          = (a, if a > 0 then min (delay * backoff_factor) max_delay else delay)
              :: (safe_request_loop outcomes k (a + 1) d2).1 := by
  cases houc : outcomes a with
  | status c =>
    simp only [safe_request_loop, houc]
    split
    · split
      · exact Or.inr ⟨_, Or.inr (Or.inl rfl), rfl⟩
      · exact Or.inl rfl
    · split
      · split
        · exact Or.inr ⟨_, Or.inr (Or.inr rfl), rfl⟩
        · exact Or.inl rfl
      · split
        · split
          · exact Or.inl rfl
          · exact Or.inr ⟨_, Or.inl rfl, rfl⟩
        · exact Or.inl rfl
  | timeout =>
    simp only [safe_request_loop, houc]
    split
    · exact Or.inl rfl
    · exact Or.inr ⟨_, Or.inl rfl, rfl⟩
  | netError =>
    simp only [safe_request_loop, houc]
    split
    · exact Or.inl rfl
    · exact Or.inr ⟨_, Or.inl rfl, rfl⟩

theorem safe_request_loop_retry_props (outcomes : Nat → AttemptOutcome) :
    ∀ (k a : Nat) (delay : ℚ), 1 ≤ a → 0 ≤ delay →
      (∀ p ∈ (safe_request_loop outcomes k a delay).1,
          a ≤ p.1 ∧ 0 ≤ p.2 ∧ p.2 ≤ max_delay) ∧
      List.Chain' (fun x y : Nat × ℚ => x.2 ≤ y.2)
        (safe_request_loop outcomes k a delay).1 ∧
      ∀ p ∈ (safe_request_loop outcomes k a delay).1.head?,
        p.2 = min (delay * backoff_factor) max_delay := by
  intro k
  induction k with
  | zero =>
    intro a delay _ _
    refine ⟨?_, ?_, ?_⟩ <;> simp [safe_request_loop]
  | succ k ih =>
    intro a delay ha hd
    have hcap : (if a > 0 then min (delay * backoff_factor) max_delay else delay)
        = min (delay * backoff_factor) max_delay := if_pos (by omega)
    have hd0 : 0 ≤ min (delay * backoff_factor) max_delay := by
      refine le_min ?_ ?_
      · have : (0 : ℚ) ≤ backoff_factor := by norm_num [backoff_factor]
        exact mul_nonneg hd this
      · norm_num [max_delay]
    have hdle : min (delay * backoff_factor) max_delay ≤ max_delay :=
      min_le_right _ _
    rcases safe_request_loop_succ outcomes k a delay with hone | ⟨d2, hd2, hcons⟩
    · rw [hone, hcap]
      refine ⟨?_, ?_, ?_⟩
      · intro p hp
        rcases List.mem_singleton.mp hp with rfl
        exact ⟨le_refl _, hd0, hdle⟩
      · simp
      · intro p hp
        simp only [List.head?_cons, Option.mem_def, Option.some.injEq] at hp
        rw [← hp]
    · rw [hcap] at hcons hd2
      have hd2nn : 0 ≤ d2 := by
        rcases hd2 with rfl | rfl | rfl
        · exact hd0
        · nlinarith
        · nlinarith
      obtain ⟨ihmem, ihchain, ihhead⟩ := ih (a + 1) d2 (by omega) hd2nn
      rw [hcons]
      refine ⟨?_, ?_, ?_⟩
      · intro p hp
        rcases List.mem_cons.mp hp with rfl | hp
        · exact ⟨le_refl _, hd0, hdle⟩
        · obtain ⟨h1, h2, h3⟩ := ihmem p hp
          exact ⟨by omega, h2, h3⟩
      · rw [List.chain'_cons']
        refine ⟨?_, ihchain⟩
        intro b hb
        rw [ihhead b hb]
        have hup : min (delay * backoff_factor) max_delay ≤ d2 * backoff_factor := by
          have hb2 : (1 : ℚ) ≤ backoff_factor := by norm_num [backoff_factor]
          have : min (delay * backoff_factor) max_delay ≤ d2 := by
            rcases hd2 with rfl | rfl | rfl
            · exact le_refl _
            · nlinarith [hd0]
            · nlinarith [hd0]
          nlinarith [hd2nn]
        exact le_min hup hdle
      · intro p hp
        simp only [List.head?_cons, Option.mem_def, Option.some.injEq] at hp
        rw [← hp]

/-- C5: within one call to safe_request, the delays actually slept before
    consecutive retry attempts form a monotonically non-decreasing sequence,
    and every one of them is bounded above by max_delay. (The call sites pass
    non-negative delay multipliers; the initial pre-attempt sleep is not a
    retry delay.) -/
theorem C5_retry_backoff_monotone_bounded (dm : ℚ) (rc0 : Nat) (dur : ℚ)
    (outcomes : Nat → AttemptOutcome) (hdm : 0 ≤ dm) :
    List.Chain' (· ≤ ·) (retrySleeps (safe_request dm rc0 dur outcomes)) ∧
    ∀ x ∈ retrySleeps (safe_request dm rc0 dur outcomes), x ≤ max_delay := by
  have hc0 : (0 : ℚ) ≤ base_delay * dm := by
    have : (0 : ℚ) ≤ base_delay := by norm_num [base_delay]
    exact mul_nonneg this hdm
  have hc1 : (0 : ℚ) ≤ (if rc0 + 1 > 50 then
      base_delay * dm + min 2 (((rc0 + 1 : Nat) : ℚ) / 100) else base_delay * dm) := by
    split
    · have h2 : (0 : ℚ) ≤ min 2 (((rc0 + 1 : Nat) : ℚ) / 100) := by
        refine le_min (by norm_num) ?_
        positivity
      linarith
    · exact hc0
  have hc2 : (0 : ℚ) ≤ (if dur > 300 then
      (if rc0 + 1 > 50 then base_delay * dm + min 2 (((rc0 + 1 : Nat) : ℚ) / 100)
       else base_delay * dm) * 1.5
      else (if rc0 + 1 > 50 then base_delay * dm + min 2 (((rc0 + 1 : Nat) : ℚ) / 100)
       else base_delay * dm)) := by
    split
    · nlinarith
    · exact hc1
  simp only [safe_request, retrySleeps, retry_attempts]
  rcases safe_request_loop_succ outcomes 4 0 _ with hone | ⟨d2, hd2, hcons⟩
  · rw [hone]
    simp
  · rw [hcons]
    simp only [if_neg (by omega : ¬ (0 : Nat) > 0)] at hcons hd2 ⊢
    have hd2nn : 0 ≤ d2 := by
      rcases hd2 with rfl | rfl | rfl
      · exact hc2
      · nlinarith
      · nlinarith
    obtain ⟨hmem, hchain, -⟩ :=
      safe_request_loop_retry_props outcomes 4 1 d2 (le_refl 1) hd2nn
    have hfil : (safe_request_loop outcomes 4 1 d2).1.filter (fun p => 1 ≤ p.1)
        = (safe_request_loop outcomes 4 1 d2).1 := by
      rw [List.filter_eq_self]
      intro p hp
      have := (hmem p hp).1
      simpa using this
    rw [List.filter_cons_of_neg (by simp), hfil]
    constructor
    · rw [List.chain'_map]
      exact hchain
    · intro x hx
      obtain ⟨p, hp, rfl⟩ := List.exists_of_mem_map hx
      exact (hmem p hp).2.2

/-- Witness for C5 at a concrete run: multiplier 1, fresh session, all
    attempts timing out. -/
theorem C5_witness :
    (0 : ℚ) ≤ 1 ∧
      (List.Chain' (· ≤ ·) (retrySleeps (safe_request 1 0 0 (fun _ => .timeout))) ∧
       ∀ x ∈ retrySleeps (safe_request 1 0 0 (fun _ => .timeout)), x ≤ max_delay) :=
  ⟨by norm_num,
   C5_retry_backoff_monotone_bounded 1 0 0 (fun _ => .timeout) (by norm_num)⟩

/-- C6 as amended: safe_request increments the session request counter exactly
    once per call, before the first attempt, whatever the outcomes. -/
theorem C6_counter_incremented_once_per_call (dm : ℚ) (rc0 : Nat) (dur : ℚ)
    (outcomes : Nat → AttemptOutcome) :
    (safe_request dm rc0 dur outcomes).requests_count = rc0 + 1 := rfl

/-- Counterexample to C6 as stated: a call in which every attempt times out
    makes zero successful attempts, yet the counter still rises by one (the
    increment at line 65 precedes the attempt loop). -/
theorem C6_counterexample :
    (safe_request 1 0 0 (fun _ => .timeout)).result = .error () ∧
    (safe_request 1 0 0 (fun _ => .timeout)).requests_count ≠ 0 + 0 :=
  ⟨rfl, by decide⟩

theorem dedupKeepFirstBy_pairwise {α β : Type _} [DecidableEq β] (key : α → β) :
    ∀ (xs : List α) (seen : List β),
      List.Pairwise (fun a b => key a ≠ key b) (dedupKeepFirstBy key seen xs) ∧
      ∀ a ∈ dedupKeepFirstBy key seen xs, key a ∉ seen
  | [], seen => ⟨List.Pairwise.nil, by simp [dedupKeepFirstBy]⟩
  | x :: xs, seen => by
      by_cases hx : key x ∈ seen
      · simpa [dedupKeepFirstBy, hx] using dedupKeepFirstBy_pairwise key xs seen
      · have ih := dedupKeepFirstBy_pairwise key xs (key x :: seen)
        simp only [dedupKeepFirstBy, if_neg hx]
        constructor
        · refine List.Pairwise.cons ?_ ih.1
          intro b hb
          have hnb := ih.2 b hb
          simp only [List.mem_cons, not_or] at hnb
          exact fun he => hnb.1 he.symm
        · intro a ha
          rcases List.mem_cons.mp ha with rfl | ha
          · exact hx
          · have hna := ih.2 a ha
            simp only [List.mem_cons, not_or] at hna
            exact hna.2

theorem dedupKeepFirstBy_of_pairwise {α β : Type _} [DecidableEq β] (key : α → β) :
    ∀ (xs : List α) (seen : List β),
      List.Pairwise (fun a b => key a ≠ key b) xs →
      (∀ a ∈ xs, key a ∉ seen) →
      dedupKeepFirstBy key seen xs = xs
  | [], _, _, _ => rfl
  | x :: xs, seen, hp, hs => by
      have hx : key x ∉ seen := hs x (by simp)
      simp only [dedupKeepFirstBy, if_neg hx]
      congr 1
      refine dedupKeepFirstBy_of_pairwise key xs (key x :: seen)
        (List.pairwise_cons.mp hp).2 ?_
      intro a ha
      simp only [List.mem_cons, not_or]
      exact ⟨fun he => ((List.pairwise_cons.mp hp).1 a ha) he.symm,
        hs a (by simp [ha])⟩

/-- Idempotence of the two-pass pandas deduplication, generically in the
    record type. -/
theorem pandasDedupe_idem {α : Type _} [DecidableEq α] (body : α → String)
    (xs : List α) :
    pandasDedupe body (pandasDedupe body xs) = pandasDedupe body xs := by
  have hpw : List.Pairwise (fun a b => body a ≠ body b) (pandasDedupe body xs) :=
    (dedupKeepFirstBy_pairwise body _ _).1
  show dedupKeepFirstBy body []
      (dedupKeepFirstBy (fun c => c) [] (pandasDedupe body xs)) = _
  rw [dedupKeepFirstBy_of_pairwise (fun c => c) (pandasDedupe body xs) []
    (hpw.imp (fun h he => h (congrArg body he))) (by simp)]
  exact dedupKeepFirstBy_of_pairwise body (pandasDedupe body xs) [] hpw (by simp)

theorem perItemLoop_fst {γ : Type _} (maxC : Nat)
    (extract : Nat → Except String (List γ)) :
    ∀ (l : List (Nat × ListingItem)) (a : List ProcessedPost)
      (b : List (TaggedComment γ)) (c : Nat),
      (l.foldl (perItemStep maxC extract) (a, b, c)).1
        = a ++ l.map (fun p => (processOneItem maxC p.2 (extract p.1)).1)
  | [], a, b, c => by simp
  | p :: l, a, b, c => by
      simp only [List.foldl_cons, List.map_cons]
      rw [show perItemStep maxC extract (a, b, c) p
          = (a ++ [(processOneItem maxC p.2 (extract p.1)).1],
             b ++ (processOneItem maxC p.2 (extract p.1)).2,
             c + (processOneItem maxC p.2 (extract p.1)).2.length) from rfl]
      rw [perItemLoop_fst maxC extract l _ _ _]
      simp

theorem perItemLoop_posts {γ : Type _} (maxC : Nat)
    (extract : Nat → Except String (List γ)) (items : List ListingItem) :
    (perItemLoop maxC extract items).1
      = items.enum.map (fun p => (processOneItem maxC p.2 (extract p.1)).1) := by
  simpa [perItemLoop] using perItemLoop_fst maxC extract items.enum [] [] 0

/-- C4: in a listing-mode run, when the per-item extraction of item i raises,
    the run still produces one annotated entry per selected item (so the
    remaining items are all processed), the failing item's entry carries
    extraction_success false with the exception message as its error string,
    every other item's entry is exactly what its own extraction outcome
    dictates, and no exception reaches the caller (the result's error field
    stays empty). -/
theorem C4_per_item_failure_isolated {γ : Type _} (subreddit sort : String)
    (time_range_days max_posts max_comments_per_post : Nat) (now : ℚ)
    (listing : List ListingItem) (extract : Nat → Except String (List γ))
    (i : Nat) (msg : String) (herr : extract i = .error msg) :
    (extract_subreddit_comments subreddit sort time_range_days max_posts
        max_comments_per_post now listing extract).error = none ∧
    (extract_subreddit_comments subreddit sort time_range_days max_posts
        max_comments_per_post now listing extract).posts.length
      = (selectedItems listing time_range_days now max_posts).length ∧
    (extract_subreddit_comments subreddit sort time_range_days max_posts
        max_comments_per_post now listing extract).posts[i]?
      = ((selectedItems listing time_range_days now max_posts)[i]?).map
          (fun it => { item := it, comments_extracted := 0,
                       extraction_success := false, error := some msg }) ∧
    ∀ j, j ≠ i →
      (extract_subreddit_comments subreddit sort time_range_days max_posts
          max_comments_per_post now listing extract).posts[j]?
        = ((selectedItems listing time_range_days now max_posts)[j]?).map
            (fun it => (processOneItem max_comments_per_post it (extract j)).1) := by
  by_cases hemp : listing.isEmpty
  · have hnil : listing = [] := List.isEmpty_iff.mp hemp
    subst hnil
    have hsel : selectedItems [] time_range_days now max_posts = [] := by
      simp [selectedItems, filter_posts_by_time_range]
    rw [hsel]
    simp [extract_subreddit_comments]
  · have hposts : (extract_subreddit_comments subreddit sort time_range_days
        max_posts max_comments_per_post now listing extract).posts
        = (selectedItems listing time_range_days now max_posts).enum.map
            (fun p => (processOneItem max_comments_per_post p.2 (extract p.1)).1) := by
      simp only [extract_subreddit_comments, if_neg hemp]
      exact perItemLoop_posts _ _ _
    have herrf : (extract_subreddit_comments subreddit sort time_range_days
        max_posts max_comments_per_post now listing extract).error = none := by
      simp only [extract_subreddit_comments, if_neg hemp]
    refine ⟨herrf, ?_, ?_, ?_⟩
    · rw [hposts]
      simp [List.enum_length]
    · rw [hposts]
      rw [List.getElem?_map, List.getElem?_enum]
      cases hsel : (selectedItems listing time_range_days now max_posts)[i]? with
      | none => simp
      | some it => simp [herr, processOneItem]
    · intro j _
      rw [hposts]
      rw [List.getElem?_map, List.getElem?_enum]
      cases hsel : (selectedItems listing time_range_days now max_posts)[j]? with
      | none => simp
      | some it => simp

/-- Witness for C4: three items, item 2 of 3 raising a simulated fetch error;
    items 1 and 3 are fully processed, item 2 is recorded as failed with the
    message, and no error escapes. -/
theorem C4_witness :
    c4_extract 1 = .error "simulated fetch error" ∧
    (extract_subreddit_comments "s" "hot" 0 3 5 0 c4_listing c4_extract).posts.length = 3 ∧
    (extract_subreddit_comments "s" "hot" 0 3 5 0 c4_listing c4_extract).posts[1]?
      = some { item := c4_item 1, comments_extracted := 0,
               extraction_success := false, error := some "simulated fetch error" } ∧
    (extract_subreddit_comments "s" "hot" 0 3 5 0 c4_listing c4_extract).posts[0]?
      = some { item := c4_item 0, comments_extracted := 2,
               extraction_success := true, error := none } ∧
    (extract_subreddit_comments "s" "hot" 0 3 5 0 c4_listing c4_extract).posts[2]?
      = some { item := c4_item 2, comments_extracted := 2,
               extraction_success := true, error := none } ∧
    (extract_subreddit_comments "s" "hot" 0 3 5 0 c4_listing c4_extract).error = none := by
  have h := C4_per_item_failure_isolated (γ := Unit) "s" "hot" 0 3 5 0
    c4_listing c4_extract 1 "simulated fetch error" rfl
  refine ⟨rfl, ?_, ?_, ?_, ?_, h.1⟩
  · rw [h.2.1]; decide
  · rw [h.2.2.1]; decide
  · rw [h.2.2.2 0 (by decide)]; decide
  · rw [h.2.2.2 2 (by decide)]; decide

/-- C7 as amended: when the initial listing retrieval yields no items at all,
    extract_subreddit_comments terminates the run and returns the empty
    result of line 595 — empty posts, comments and summary — whose error
    field is absent, not populated. -/
theorem C7_empty_listing_empty_result_no_error {γ : Type _}
    (subreddit sort : String) (time_range_days max_posts max_comments_per_post : Nat)
    (now : ℚ) (extract : Nat → Except String (List γ)) :
    extract_subreddit_comments subreddit sort time_range_days max_posts
        max_comments_per_post now [] extract
      = { posts := [], comments := [], summary := none, error := none } := rfl

/-- Counterexample to C7 as stated: on an empty listing the returned empty
    result has no error field at all (the bare return at line 595 carries
    only posts, comments and an empty summary). -/
theorem C7_counterexample :
    (extract_subreddit_comments (γ := Unit) "anything" "hot" 7 10 100 0 []
        (fun _ => .ok [])).posts = [] ∧
    (extract_subreddit_comments (γ := Unit) "anything" "hot" 7 10 100 0 []
        (fun _ => .ok [])).comments = [] ∧
    (extract_subreddit_comments (γ := Unit) "anything" "hot" 7 10 100 0 []
        (fun _ => .ok [])).summary = none ∧
    (extract_subreddit_comments (γ := Unit) "anything" "hot" 7 10 100 0 []
        (fun _ => .ok [])).error = none :=
  ⟨rfl, rfl, rfl, rfl⟩

/-- Counterexample to C8 as stated: a listing-mode run with max_posts = 100
    sends limit 100, not 2 x 100. -/
theorem C8_counterexample :
    listingRequestLimit "hot" 7 100 = some "100" ∧
    listingRequestLimit "hot" 7 100 ≠ some (toString (min (2 * 100) 500)) :=
  ⟨rfl, by decide⟩

/-- C8 as amended: the listing retrieval step of a listing-mode run requests
    max_posts items unchanged — the limit parameter is min(max_posts, 500)
    when max_posts exceeds 25 and is omitted otherwise; no doubling occurs. -/
theorem C8_listing_limit_is_max_posts (sort : String)
    (time_range_days max_posts : Nat) :
    listingRequestLimit sort time_range_days max_posts
      = if max_posts > 25 then some (toString (min max_posts 500)) else none := by
  unfold listingRequestLimit subredditListingParams
  by_cases hs : sort = "top" ∨ sort = "controversial" <;>
    by_cases hN : max_posts > 25 <;>
      simp [hs, hN, List.lookup]

theorem process_replies_go_gt15 (fuel : Nat) (doc : HNode) (url : String)
    (what : List Nat) (pid : Option String) (depth : Nat) (acc : List HComment)
    (h : depth > 15) : process_replies_go fuel doc url what pid depth acc = (acc, 0) := by
  cases fuel <;> simp [process_replies_go, h]

theorem process_replies_go_fuel : ∀ (k f g : Nat) (doc : HNode) (url : String)
    (what : List Nat) (pid : Option String) (depth : Nat) (acc : List HComment),
    16 - depth ≤ k → 17 - depth ≤ f → 17 - depth ≤ g →
    process_replies_go f doc url what pid depth acc
      = process_replies_go g doc url what pid depth acc := by
  intro k
  induction k with
  | zero =>
    intro f g doc url what pid depth acc hk _ _
    have hd : depth > 15 := by omega
    rw [process_replies_go_gt15 _ _ _ _ _ _ _ hd,
        process_replies_go_gt15 _ _ _ _ _ _ _ hd]
  | succ k ih =>
    intro f g doc url what pid depth acc hk hf hg
    by_cases hd : depth > 15
    · rw [process_replies_go_gt15 _ _ _ _ _ _ _ hd,
          process_replies_go_gt15 _ _ _ _ _ _ _ hd]
    · obtain ⟨f', rfl⟩ : ∃ f', f = f' + 1 := ⟨f - 1, by omega⟩
      obtain ⟨g', rfl⟩ : ∃ g', g = g' + 1 := ⟨g - 1, by omega⟩
      simp only [process_replies_go, if_neg hd]
      have hrec : (fun box pid2 acc2 =>
          process_replies_go f' doc url box pid2 (depth + 1) acc2)
          = (fun box pid2 acc2 =>
          process_replies_go g' doc url box pid2 (depth + 1) acc2) := by
        funext box pid2 acc2
        exact ih f' g' doc url box pid2 (depth + 1) acc2
          (by omega) (by omega) (by omega)
      rw [hrec]

/-- Any fuel of at least 17 computes process_replies from depth 0: the
    choice of 32 in the wrapper is immaterial, the depth > 15 guard is what
    terminates the walk. -/
theorem process_replies_fuel_sufficient (f : Nat) (doc : HNode) (url : String)
    (what : List Nat) (pid : Option String) (acc : List HComment)
    (hf : 17 ≤ f) :
    process_replies_go f doc url what pid 0 acc
      = process_replies doc url what pid 0 acc :=
  process_replies_go_fuel 16 f 32 doc url what pid 0 acc
    (by omega) (by omega) (by omega)

/-- The invariant claim C2's amendment needs of every emitted HTML record. -/
def HGood (c : HComment) : Prop := c.comment_id ≠ "" ∧ c.body ≠ ""

theorem pyOrStr_ne {a : Option String} {b : String} (hb : b ≠ "") :
    pyOrStr a b ≠ "" := by
  cases a with
  | none => simpa [pyOrStr] using hb
  | some s =>
    simp only [pyOrStr]
    split
    · exact hb
    · assumption

theorem comment_prefix_ne (t : String) : ("comment_" ++ t) ≠ "" := by
  intro h
  have hlen := congrArg String.length h
  simp only [String.length_append] at hlen
  have h8 : "comment_".length = 8 := rfl
  have h0 : "".length = 0 := rfl
  omega

theorem pyStrip_pos_ne {nb : String} (h : 0 < (pyStrip nb).length) : nb ≠ "" := by
  intro he
  subst he
  have h0 : (pyStrip "").length = 0 := rfl
  omega

theorem parse_comment_finish_inv
    (cid parent_id author1 author_id subreddit link created_time : Option String)
    (score : Option Int) (normalized_body : Option String) (depth : Nat)
    (acc : List HComment) (hacc : ∀ c ∈ acc, HGood c) :
    ∀ c ∈ (parse_comment_finish cid parent_id author1 author_id subreddit
      link created_time score normalized_body depth acc).1, HGood c := by
  cases normalized_body with
  | none => simpa [parse_comment_finish] using hacc
  | some nb =>
    simp only [parse_comment_finish]
    split
    case isTrue hpos =>
      intro c hc
      rcases List.mem_append.mp hc with hc | hc
      · exact hacc c hc
      · rcases List.mem_singleton.mp hc with rfl
        exact ⟨pyOrStr_ne (comment_prefix_ne _), pyStrip_pos_ne hpos⟩
    case isFalse => exact hacc

theorem parse_comment_inv (doc : HNode) (url : String) (ctx : List Nat)
    (pid : Option String) (depth : Nat) (acc : List HComment)
    (hacc : ∀ c ∈ acc, HGood c) :
    ∀ c ∈ (parse_comment doc url ctx pid depth acc).1, HGood c :=
  parse_comment_finish_inv _ _ _ _ _ _ _ _ _ _ _ hacc

theorem prBoxLoop_inv
    {recurse : List Nat → Option String → List HComment → List HComment × Nat}
    (hrec : ∀ box pid2 acc2, (∀ c ∈ acc2, HGood c) →
      ∀ c ∈ (recurse box pid2 acc2).1, HGood c)
    (doc : HNode) (url : String) (pid : Option String) (depth : Nat) :
    ∀ (boxes : List (List Nat)) (st : PRState), (∀ c ∈ st.acc, HGood c) →
      ∀ c ∈ (prBoxLoop recurse doc url pid depth boxes st).acc, HGood c
  | [], st, hst => hst
  | box :: boxes, st, hst => by
      simp only [prBoxLoop]
      split
      · exact prBoxLoop_inv hrec doc url pid depth boxes st hst
      · have hpc := parse_comment_inv doc url box pid (depth + 1) st.acc hst
        split
        · exact prBoxLoop_inv hrec doc url pid depth boxes _
            (hrec box _ _ hpc)
        · exact prBoxLoop_inv hrec doc url pid depth boxes _ hpc

theorem prSelLoop_inv
    {recurse : List Nat → Option String → List HComment → List HComment × Nat}
    (hrec : ∀ box pid2 acc2, (∀ c ∈ acc2, HGood c) →
      ∀ c ∈ (recurse box pid2 acc2).1, HGood c)
    (doc : HNode) (url : String) (pid : Option String) (depth : Nat) :
    ∀ (sels : List (List (List Nat))) (st : PRState), (∀ c ∈ st.acc, HGood c) →
      ∀ c ∈ (prSelLoop recurse doc url pid depth sels st).acc, HGood c
  | [], _, hst => hst
  | sel :: sels, st, hst =>
      prSelLoop_inv hrec doc url pid depth sels _
        (prBoxLoop_inv hrec doc url pid depth sel st hst)

theorem chainItemLoop_inv (doc : HNode) (url : String) (pid : Option String)
    (depth : Nat) :
    ∀ (items : List (List Nat)) (st : PRState), (∀ c ∈ st.acc, HGood c) →
      ∀ c ∈ (chainItemLoop doc url pid depth items st).acc, HGood c
  | [], st, hst => hst
  | item :: items, st, hst => by
      simp only [chainItemLoop]
      split
      · have hpc := parse_comment_inv doc url item pid (depth + 1) st.acc hst
        split
        · exact chainItemLoop_inv doc url pid depth items _ hpc
        · exact chainItemLoop_inv doc url pid depth items _ hpc
      · exact chainItemLoop_inv doc url pid depth items st hst

theorem chainSelLoop_inv (doc : HNode) (url : String) (pid : Option String)
    (depth : Nat) :
    ∀ (sels : List (List (List Nat))) (st : PRState), (∀ c ∈ st.acc, HGood c) →
      ∀ c ∈ (chainSelLoop doc url pid depth sels st).acc, HGood c
  | [], _, hst => hst
  | sel :: sels, st, hst =>
      chainSelLoop_inv doc url pid depth sels _
        (chainItemLoop_inv doc url pid depth (sel.take 10) st hst)

theorem process_replies_go_inv : ∀ (fuel : Nat) (doc : HNode) (url : String)
    (what : List Nat) (pid : Option String) (depth : Nat) (acc : List HComment),
    (∀ c ∈ acc, HGood c) →
    ∀ c ∈ (process_replies_go fuel doc url what pid depth acc).1, HGood c := by
  intro fuel
  induction fuel with
  | zero =>
    intro doc url what pid depth acc hacc
    simpa [process_replies_go] using hacc
  | succ fuel ih =>
    intro doc url what pid depth acc hacc
    by_cases hd : depth > 15
    · rw [process_replies_go_gt15 _ _ _ _ _ _ _ hd]
      exact hacc
    · simp only [process_replies_go, if_neg hd]
      have h1 := prSelLoop_inv
        (fun box pid2 acc2 h => ih doc url box pid2 (depth + 1) acc2 h)
        doc url pid depth
        [selReplies1 doc what, selReplies2 doc what, selReplies3 doc what,
         selReplies4 doc what, selReplies5 doc what, selReplies6 doc what]
        { acc := acc, found := 0, processed := [] } hacc
      split
      · exact chainSelLoop_inv doc url pid depth
          [selChain1 doc what, selChain2 doc what, selChain3 doc what] _ h1
      · exact h1

/-- Every record parse_post_comments emits has a non-empty comment_id and a
    non-empty body. -/
theorem parse_post_comments_good (doc : HNode) (url : String) :
    ∀ c ∈ parse_post_comments doc url, HGood c := by
  simp only [parse_post_comments]
  split
  case h_1 items _ =>
    refine foldl_hold (P := fun (acc : List HComment) => ∀ c ∈ acc, HGood c)
      _ _ (by simp) ?_
    intro acc item _ hacc
    simp only [mainItemStep]
    split
    · exact process_replies_go_inv 32 doc url item _ 0 _
        (parse_comment_inv doc url item none 0 acc hacc)
    · exact parse_comment_inv doc url item none 0 acc hacc
  case h_2 =>
    refine foldl_hold (P := fun (acc : List HComment) => ∀ c ∈ acc, HGood c)
      _ _ (by simp) ?_
    intro acc divp _ hacc
    simp only [fallbackDivStep]
    split
    · exact hacc
    · split
      · exact parse_comment_inv doc url divp none 0 acc hacc
      · exact hacc

/-- C1 (code bug): on c1_fixture — a top-level comment and its nested reply,
    both lacking data-fullname — the reply is linked to parent_id comment_1,
    the value parse_comment returned for the parent, while the parent was
    stored as comment_0 (the synthesized ordinal is recomputed after the
    append at line 286); the reply itself is stored as comment_1, so the
    output contains a comment c and a record p with c.parent_id =
    p.comment_id and depth(c) = 1 while depth(p) + 1 = 2, violating the
    claimed invariant. -/
theorem C1_depth_invariant_violated :
    ((parse_post_comments c1_fixture "https://example.com/post").map
        (fun c => (c.comment_id, c.parent_id, c.depth)))
      = [("comment_0", none, 0), ("comment_1", some "comment_1", 1),
         ("comment_2", some "comment_1", 1)] ∧
    ∃ c ∈ parse_post_comments c1_fixture "https://example.com/post",
      ∃ p ∈ parse_post_comments c1_fixture "https://example.com/post",
        c.parent_id = some p.comment_id ∧ c.depth ≠ p.depth + 1 :=
  ⟨by decide, by decide⟩

/-- C2 as amended: every record parse_post_comments emits has a non-empty
    comment_id (source-assigned or synthesized) and a non-empty body; every
    record parse_reddit_json_comments emits has a non-empty body (its
    comment_id, however, is the verbatim source id — see the
    counterexample). -/
theorem C2_amended :
    (∀ (doc : HNode) (url : String), ∀ c ∈ parse_post_comments doc url,
        c.comment_id ≠ "" ∧ c.body ≠ "") ∧
    (∀ j : JVal, ∀ c ∈ parse_reddit_json_comments j, c.body ≠ "") :=
  ⟨fun doc url => parse_post_comments_good doc url,
   parse_reddit_json_comments_body_ne⟩

/-- Witness for C2 as amended: the record emitted on c2_html_fixture. -/
theorem C2_amended_witness :
    c2w_record ∈ parse_post_comments c2_html_fixture "u" ∧
    (c2w_record.comment_id ≠ "" ∧ c2w_record.body ≠ "") :=
  ⟨by decide, C2_amended.1 c2_html_fixture "u" c2w_record (by decide)⟩

/-- C9: the two-pass deduplication of process_comments_with_pandas is
    idempotent at both parsers' record types: dropping exact full-record
    duplicates and then body duplicates (keeping first occurrences in input
    order) a second time changes nothing. -/
theorem C9_dedupe_idempotent :
    (∀ xs : List HComment,
        dedupe_html_comments (dedupe_html_comments xs) = dedupe_html_comments xs) ∧
    (∀ xs : List JComment,
        dedupe_json_comments (dedupe_json_comments xs) = dedupe_json_comments xs) :=
  ⟨fun xs => pandasDedupe_idem _ xs, fun xs => pandasDedupe_idem _ xs⟩

end Reddit
